import Mathlib

/-!
# Actionable-error classification (pkg/skaffold/errors) and the tester (pkg/skaffold/test)

A shallow embedding of `errors.go`, `build_problems.go` and `test_factory.go`.

* Go strings are Lean `String`s (sequences of Unicode code points).
* Go slices are Lean `List`s; the `nil` slice is `[]`.
* A Go `error` value that is not `nil` is a `GoError`.
* Package-level mutable variables (`runCtx`, `getConfigForCurrentContext`) are explicit arguments.
* A compiled `*regexp.Regexp` is a `Regex` syntax tree; `MatchString` is decided with
  Brzozowski derivatives.
* The telemetry collaborator is an explicit log of recorded status codes, and the test runners
  act on an explicit state.
-/

namespace Skaffold

/-! ## Regular expressions (the fragment of Go `regexp` syntax used by the patterns) -/

/-- Syntax trees of the regular expressions that occur in the sources. -/
inductive Regex where
  /-- The expression that matches no string (only arises as a derivative). -/
  | fail : Regex
  /-- The empty expression, matching the empty string. -/
  | empty : Regex
  /-- A literal character, such as `g` or the escaped dot `\.`. -/
  | char (c : Char) : Regex
  /-- The metacharacter `.`: any character except the line feed (Go default flags). -/
  | dot : Regex
  /-- Concatenation `rs`. -/
  | cat (r s : Regex) : Regex
  /-- Alternation `r|s`. -/
  | alt (r s : Regex) : Regex
  /-- Repetition `r*`. -/
  | star (r : Regex) : Regex
  deriving DecidableEq, Repr

namespace Regex

/-- The line feed character, which `.` does not match. -/
def lineFeed : Char := Char.ofNat 10

/-- Go `r+`: one or more repetitions. -/
def plus (r : Regex) : Regex := cat r (star r)

/-- Go `r?`: zero or one occurrence. -/
def opt (r : Regex) : Regex := alt r empty

/-- A literal string: the concatenation of its characters. -/
def lit : List Char → Regex
  | [] => empty
  | c :: cs => cat (char c) (lit cs)

/-- Whether the expression matches the empty string. -/
def nullable : Regex → Bool
  | fail => false
  | empty => true
  | char _ => false
  | dot => false
  | cat r s => nullable r && nullable s
  | alt r s => nullable r || nullable s
  | star _ => true

/-- Brzozowski derivative: what remains to be matched after reading `a`. -/
def deriv : Regex → Char → Regex
  | fail, _ => fail
  | empty, _ => fail
  | char c, a => if a = c then empty else fail
  | dot, a => if a = lineFeed then fail else empty
  | cat r s, a =>
    if nullable r then alt (cat (deriv r a) s) (deriv s a) else cat (deriv r a) s
  | alt r s, a => alt (deriv r a) (deriv s a)
  | star r, a => cat (deriv r a) (star r)

/-- The whole input is matched by the expression. -/
def fullMatch : Regex → List Char → Bool
  | r, [] => nullable r
  | r, a :: as => fullMatch (deriv r a) as

/-- Some initial segment of the input is matched: a match that begins at this position. -/
def matchAt : Regex → List Char → Bool
  | r, [] => nullable r
  | r, a :: as => nullable r || matchAt (deriv r a) as

/-- A match begins at some position of the input (unanchored search). -/
def search (r : Regex) : List Char → Bool
  | [] => matchAt r []
  | a :: as => matchAt r (a :: as) || search r as

/-- The language of an expression: `Matches r w` says that `r` matches exactly the text `w`. -/
inductive Matches : Regex → List Char → Prop where
  | empty : Matches .empty []
  | char (c : Char) : Matches (.char c) [c]
  | dot (a : Char) (h : a ≠ lineFeed) : Matches .dot [a]
  | cat {r s : Regex} {u v : List Char} : Matches r u → Matches s v → Matches (.cat r s) (u ++ v)
  | altLeft {r s : Regex} {u : List Char} : Matches r u → Matches (.alt r s) u
  | altRight {r s : Regex} {u : List Char} : Matches s u → Matches (.alt r s) u
  | starNil {r : Regex} : Matches (.star r) []
  | starCons {r : Regex} {u v : List Char} :
    Matches r u → Matches (.star r) v → Matches (.star r) (u ++ v)

end Regex

/-- Go `(*Regexp).MatchString`: reports whether the string contains any match of the
expression. -/
def MatchString (r : Regex) (s : String) : Bool := r.search s.data

/-! ## The protocol types (`proto/v1`) -/

namespace proto

/-- The status codes named in the sources; `other n` stands for every further member of the
enumeration (the codes carried by descriptors declared in other files). -/
inductive StatusCode where
  | UNKNOWN_ERROR
  | BUILD_UNKNOWN
  | INIT_UNKNOWN
  | DEPLOY_UNKNOWN
  | STATUSCHECK_UNKNOWN
  | SYNC_UNKNOWN
  | DEVINIT_UNKNOWN
  | CLEANUP_UNKNOWN
  | other (n : Nat)
  deriving DecidableEq, Repr

/-- The suggestion codes named in the sources; `other n` stands for every further member. -/
inductive SuggestionCode where
  | OPEN_ISSUE
  | CHECK_DEFAULT_REPO
  | CHECK_DEFAULT_REPO_GLOBAL_CONFIG
  | ADD_DEFAULT_REPO
  | GCLOUD_DOCKER_AUTH_CONFIGURE
  | DOCKER_AUTH_CONFIGURE
  | other (n : Nat)
  deriving DecidableEq, Repr

/-- A suggestion: a code and the text of the action proposed to the user. -/
structure Suggestion where
  SuggestionCode : SuggestionCode
  Action : String
  deriving DecidableEq, Repr

/-- The assembled result: status code, message and suggestions. -/
structure ActionableErr where
  ErrCode : StatusCode
  Message : String
  Suggestions : List Suggestion
  deriving DecidableEq, Repr

end proto

/-! ## Run context and persisted configuration -/

/-- The command line options read by the suggestion generators. `DefaultRepo` is a
`StringOrUndefined`: `none` is the undefined value, for which `Value()` returns `nil`. -/
structure SkaffoldOptions where
  DefaultRepo : Option String
  GlobalConfig : String
  deriving DecidableEq, Repr

/-- The run context, of which the sources read the options only. -/
structure RunContext where
  Opts : SkaffoldOptions
  deriving DecidableEq, Repr

/-- The zero value of `runcontext.RunContext`, held by `runCtx` before it is set. -/
def RunContext.zero : RunContext := ⟨⟨none, ""⟩⟩

/-- The persisted configuration of a cluster context, of which the sources read the default
repository only. -/
structure ContextConfig where
  DefaultRepo : String
  deriving DecidableEq, Repr

/-- The type of `getConfigForCurrentContext`: given the path of the global configuration file it
returns the configuration of the current context, or the error of the failed read. -/
abbrev ConfigReader := String → Except String ContextConfig

/-! ## Phases, problem descriptors and errors -/

/-- Go `type Phase string`. -/
abbrev Phase := String

def Init : Phase := "Init"

def Build : Phase := "Build"

def Deploy : Phase := "Deploy"

def StatusCheck : Phase := "StatusCheck"

def FileSync : Phase := "FileSync"

def DevInit : Phase := "DevInit"

def Cleanup : Phase := "Cleanup"

def reportIssueText : String :=
  "If above error is unexpected, please open an issue https://github.com/GoogleContainerTools/skaffold/issues/new to report this error"

/-- Modelled from the spec: the struct `problem` is declared outside the files at hand. It is the
spec's Problem Descriptor: a pattern, a status code, a suggestion generator and an optional
description formatter (`none` is the Go `nil` function). The formatter receives the error a
descriptor was matched against; it is modelled as a function of that error's message. The field
`err` of the Go struct is the second argument of `GoError.problem`. -/
structure problem where
  regexp : Regex
  description : Option (String → String)
  errCode : proto.StatusCode
  suggestion : RunContext → List proto.Suggestion

/-- Non-nil values of the Go interface `error`, by dynamic type. -/
inductive GoError where
  /-- An error of no particular type that carries a message and wraps nothing. -/
  | plain (msg : String) : GoError
  /-- An error with message `msg` whose `Unwrap` yields `inner`, as built by `fmt.Errorf`
  with the verb `%w`. -/
  | wrap (msg : String) (inner : GoError) : GoError
  /-- A value of a type that implements the interface `Error` of this package: it answers
  `StatusCode()`, `Suggestions()` and `Error()`. -/
  | skaffold (code : proto.StatusCode) (suggestions : List proto.Suggestion) (msg : String) :
    GoError
  /-- A matched problem: the descriptor `p` with its field `err` set, as `p.withErr err`
  returns it. -/
  | problem (p : problem) (err : GoError) : GoError

namespace GoError

/-- Modelled from the spec: the method `Error()`. The message of a matched problem (declared
outside the files at hand) is its description of the wrapped error when the descriptor has a
formatter, and the wrapped error's message otherwise. -/
def Error : GoError → String
  | plain msg => msg
  | wrap msg _ => msg
  | skaffold _ _ msg => msg
  | problem p err =>
    match p.description with
    | some describe => describe (Error err)
    | none => Error err

/-- Go `errors.As(err, &sErr)` for `var sErr Error`: the first error of the `Unwrap` chain that
implements `Error`, given by its status code and suggestions. A matched problem neither
implements `Error` nor unwraps. -/
def asSkaffoldErr : GoError → Option (proto.StatusCode × List proto.Suggestion)
  | plain _ => none
  | wrap _ inner => asSkaffoldErr inner
  | skaffold code suggestions _ => some (code, suggestions)
  | problem _ _ => none

/-- Go `errors.As(err, &p)` for `var p problem`: the first error of the `Unwrap` chain whose
dynamic type is `problem`. It is consulted only after `asSkaffoldErr` found nothing. -/
def asProblem : GoError → Option Skaffold.problem
  | plain _ => none
  | wrap _ inner => asProblem inner
  | skaffold _ _ _ => none
  | problem p _ => some p

end GoError

/-- The suggestion attached to every catch-all: open an issue. -/
def reportIssueSuggestion : RunContext → List proto.Suggestion :=
  fun _ => [⟨.OPEN_ISSUE, reportIssueText⟩]

/-- The pattern `.*` of the catch-all descriptors. -/
def reAll : Regex := .star .dot

/-- The descriptor tables that `allErrors` is built from and that are declared outside the files
at hand: they are parameters of everything below. -/
structure KnownProblems where
  knownBuildProblems : List problem
  knownInitProblems : List problem
  knownDeployProblems : List problem
  oldImageManifest : problem

/-- The catch-all descriptor that ends the list of a phase. -/
def catchAll (code : proto.StatusCode) : problem :=
  { regexp := reAll, description := none, errCode := code, suggestion := reportIssueSuggestion }

/-- The map literal `allErrors`, as the list of its entries in source order. -/
def allErrorsEntries (K : KnownProblems) : List (Phase × List problem) :=
  [ (Build, K.knownBuildProblems ++ [catchAll .BUILD_UNKNOWN]),
    (Init, K.knownInitProblems ++ [catchAll .INIT_UNKNOWN]),
    (Deploy, K.knownDeployProblems ++ [catchAll .DEPLOY_UNKNOWN]),
    (StatusCheck, [catchAll .STATUSCHECK_UNKNOWN]),
    (FileSync, [catchAll .SYNC_UNKNOWN]),
    (DevInit, [K.oldImageManifest, catchAll .DEVINIT_UNKNOWN]),
    (Cleanup, [catchAll .CLEANUP_UNKNOWN]) ]

/-- The map lookup `allErrors[phase]`: `none` when the phase is not a key. -/
def allErrors (K : KnownProblems) (phase : Phase) : Option (List problem) :=
  (allErrorsEntries K).lookup phase

/-- The loop `for _, v := range problems` of `getErrorCodeFromError`: the first descriptor whose
pattern matches the message returns; `none` when the loop runs to its end. -/
def firstMatch (runCtx : RunContext) (msg : String) :
    List problem → Option (proto.StatusCode × List proto.Suggestion)
  | [] => none
  | v :: rest =>
    if MatchString v.regexp msg then some (v.errCode, v.suggestion runCtx)
    else firstMatch runCtx msg rest

/-- The function `getErrorCodeFromError(phase, err)` for a non-nil `err`, under the tables `K`
and the current value `runCtx` of the package variable. -/
def getErrorCodeFromError (K : KnownProblems) (runCtx : RunContext) (phase : Phase)
    (err : GoError) : proto.StatusCode × List proto.Suggestion :=
  match err.asSkaffoldErr with
  | some (code, suggestions) => (code, suggestions)
  | none =>
    match err.asProblem with
    | some p => (p.errCode, p.suggestion runCtx)
    | none =>
      match allErrors K phase with
      | some problems =>
        match firstMatch runCtx err.Error problems with
        | some result => result
        | none => (.UNKNOWN_ERROR, [])
      | none => (.UNKNOWN_ERROR, [])

/-! ## The run-context holder -/

/-- The package variables `setRunContextOnce` and `runCtx`: `done` tells whether the
`sync.Once` has fired. -/
structure Holder where
  done : Bool
  runCtx : RunContext
  deriving DecidableEq, Repr

/-- The state at process start. -/
def Holder.initial : Holder := ⟨false, RunContext.zero⟩

/-- The function `SetRunContext(rc)`: the assignment runs only the first time. -/
def SetRunContext (rc : RunContext) (h : Holder) : Holder :=
  if h.done then h else ⟨true, rc⟩

/-- A sequence of `SetRunContext` calls, in order. -/
def setRunContexts (rcs : List RunContext) (h : Holder) : Holder :=
  rcs.foldl (fun st rc => SetRunContext rc st) h

/-! ## Build problems (`build_problems.go`) -/

def PushImageErr : String := "could not push image"

def DockerConnectionFailed : String := ".*(Cannot connect to the Docker daemon.*) Is"

def BuildCancelled : String := ".*context canceled.*"

/-- The compiled pattern `DockerConnectionFailed`. -/
def reDockerConnectionFailed : Regex :=
  .cat (.star .dot)
    (.cat (.cat (.lit "Cannot connect to the Docker daemon".data) (.star .dot)) (.lit " Is".data))

/-- The compiled pattern `BuildCancelled`. -/
def reBuildCancelled : Regex :=
  .cat (.star .dot) (.cat (.lit "context canceled".data) (.star .dot))

/-- The pattern `(.+\.)?gcr\.io.*` of `makeAuthSuggestionsForRepo`. -/
def reGcr : Regex :=
  .cat (.opt (.cat (.plus .dot) (.char '.')))
    (.cat (.lit "gcr".data) (.cat (.char '.') (.cat (.lit "io".data) (.star .dot))))

/-- The function `makeAuthSuggestionsForRepo(repo)`: the hint depends on whether the pattern is
found in the repository string. -/
def makeAuthSuggestionsForRepo (repo : String) : proto.Suggestion :=
  if MatchString reGcr repo then
    ⟨.GCLOUD_DOCKER_AUTH_CONFIGURE, "try `gcloud auth configure-docker`"⟩
  else
    ⟨.DOCKER_AUTH_CONFIGURE, "try `docker login`"⟩

/-- The function `suggestBuildPushAccessDeniedAction(runCtx)`, under the current value of the
package variable `getConfigForCurrentContext`. -/
def suggestBuildPushAccessDeniedAction (getConfigForCurrentContext : ConfigReader)
    (runCtx : RunContext) : List proto.Suggestion :=
  match runCtx.Opts.DefaultRepo with
  | some defaultRepo =>
    [⟨.CHECK_DEFAULT_REPO, "Check your `--default-repo` value"⟩] ++
      [makeAuthSuggestionsForRepo defaultRepo]
  | none =>
    match getConfigForCurrentContext runCtx.Opts.GlobalConfig with
    | .ok cfg =>
      if cfg.DefaultRepo ≠ "" then
        [⟨.CHECK_DEFAULT_REPO_GLOBAL_CONFIG, "Check your default-repo setting in skaffold config"⟩]
          ++ [makeAuthSuggestionsForRepo cfg.DefaultRepo]
      else [⟨.ADD_DEFAULT_REPO, "Trying running with `--default-repo` flag"⟩]
    | .error _ => [⟨.ADD_DEFAULT_REPO, "Trying running with `--default-repo` flag"⟩]

/-! ## Display, assembly and reclassification (`errors.go`) -/

/-- The function `concatSuggestions(suggestions)`: the loop writes the connective before an action
only when the builder is not empty, and the final dot is written only when the builder is not
empty. -/
def concatSuggestions (suggestions : List proto.Suggestion) : String :=
  let s := suggestions.foldl
    (fun (s : String) suggestion => (if s ≠ "" then s ++ " or " else s) ++ suggestion.Action) ""
  if s = "" then "" else s ++ "."

namespace instrumentation

/-- Modelled from the spec: the telemetry collaborator is declared outside the files at hand. Its
state is the log of the status codes recorded so far, oldest first. -/
abbrev Telemetry := List proto.StatusCode

/-- Modelled from the spec: the call `instrumentation.SetErrorCode(code)` records one status
code. -/
def SetErrorCode (code : proto.StatusCode) (log : Telemetry) : Telemetry := log ++ [code]

end instrumentation

/-- The function `ActionableErr(phase, err)` for a non-nil `err`: the assembled structure and the
telemetry log after the call. Neither this function nor `getErrorCodeFromError` calls the
telemetry collaborator. -/
def ActionableErr (K : KnownProblems) (runCtx : RunContext) (phase : Phase) (err : GoError)
    (log : instrumentation.Telemetry) : proto.ActionableErr × instrumentation.Telemetry :=
  match getErrorCodeFromError K runCtx phase err with
  | (errCode, suggestions) =>
    ({ ErrCode := errCode, Message := err.Error, Suggestions := suggestions }, log)

/-- Modelled from the spec: the type assertion `err.(Error)` behind `IsSkaffoldErr`, which is
declared outside the files at hand. It succeeds when the dynamic type of `err` itself implements
`Error`, and then gives the status code and the suggestions. -/
def GoError.assertError : GoError → Option (proto.StatusCode × List proto.Suggestion)
  | .skaffold code suggestions _ => some (code, suggestions)
  | _ => none

/-- Modelled from the spec: the helper `IsSkaffoldErr(err)`. -/
def IsSkaffoldErr (err : GoError) : Bool := err.assertError.isSome

/-- Modelled from the spec: the helper `isProblem(err)`, declared outside the files at hand. It
succeeds when the dynamic type of `err` itself is `problem`, and then gives the descriptor; the
problem as an error value is `err`. -/
def isProblem : GoError → Option problem
  | .problem p _ => some p
  | _ => none

/-- Modelled from the spec: the method `p.withErr(err)`, declared outside the files at hand: the
descriptor with its field `err` set. -/
def problem.withErr (p : problem) (err : GoError) : GoError := .problem p err

/-- The list that `ShowAIError` ranges over:
`append(append(knownBuildProblems, knownDeployProblems...), knownInitProblems...)`. -/
def knownProblems (K : KnownProblems) : List problem :=
  (K.knownBuildProblems ++ K.knownDeployProblems) ++ K.knownInitProblems

/-- The loop of `ShowAIError`: the first descriptor whose pattern matches the message. -/
def firstKnown (msg : String) : List problem → Option problem
  | [] => none
  | p :: rest => if MatchString p.regexp msg then some p else firstKnown msg rest

/-- The function `ShowAIError(err)` for a non-nil `err`: the returned error and the telemetry log
after the call. -/
def ShowAIError (K : KnownProblems) (err : GoError) (log : instrumentation.Telemetry) :
    GoError × instrumentation.Telemetry :=
  match err.assertError with
  | some (code, _) => (err, instrumentation.SetErrorCode code log)
  | none =>
    match isProblem err with
    | some p => (err, instrumentation.SetErrorCode p.errCode log)
    | none =>
      match firstKnown err.Error (knownProblems K) with
      | some p => (p.withErr err, instrumentation.SetErrorCode p.errCode log)
      | none => (err, log)

/-! ## The Build descriptors of the specification -/

/-- Modelled from the spec: the table `knownBuildProblems` is declared outside the files at hand.
This is the descriptor of the first Build scenario of the spec: a message that matches
`DockerConnectionFailed` gets a status code that signals a daemon-connectivity problem, which is
not `BUILD_UNKNOWN`, and a suggestion to check the local container engine. -/
def specDockerDaemon : problem :=
  { regexp := reDockerConnectionFailed, description := none, errCode := .other 101,
    suggestion := fun _ => [⟨.other 101, "Check if docker is running"⟩] }

/-- Modelled from the spec: the descriptor of the second Build scenario of the spec: a message
that matches `BuildCancelled` gets a status code that signals a cancellation, which is not
`BUILD_UNKNOWN`. -/
def specBuildCancelled : problem :=
  { regexp := reBuildCancelled, description := none, errCode := .other 102,
    suggestion := fun _ => [] }

/-- Modelled from the spec: the table `knownBuildProblems`, holding the descriptors of the Build
scenarios in the order in which the spec lists them. -/
def specKnownBuildProblems : List problem := [specDockerDaemon, specBuildCancelled]

/-- Descriptor tables whose Build list is the one of the spec; the other tables are arbitrary. -/
def specTables (initProblems deployProblems : List problem) (oldImageManifest : problem) :
    KnownProblems :=
  { knownBuildProblems := specKnownBuildProblems,
    knownInitProblems := initProblems,
    knownDeployProblems := deployProblems,
    oldImageManifest := oldImageManifest }

/-! ## The tester (`test_factory.go`) -/

namespace test

/-- Text written to an `io.Writer`: the chunks written, oldest first. -/
abbrev Output := List String

/-- Modelled from the spec: the interface `runner` is declared outside the files at hand. A runner
acts on a state `σ`, which stands for everything it reads and changes apart from its writer.
`Test` gives the text the runner writes to the writer it is handed, its error (`none` is `nil`)
and the state it leaves; the context and the build artifacts, which are handed on unchanged to
every runner, are part of the runner. `TestDependencies` gives the dependencies or the error, and
the state it leaves. -/
structure runner (σ : Type) where
  Test : σ → Output × Option GoError × σ
  TestDependencies : σ → Except GoError (List String) × σ

/-- The struct `FullTester`; `muted` is the answer of `t.muted.MuteTest()`. -/
structure FullTester (σ : Type) where
  runners : List (runner σ)
  muted : Bool

/-- The loop of `TestDependencies`, with the dependencies collected so far. -/
def depsLoop {σ : Type} (deps : List String) :
    List (runner σ) → σ → Except GoError (List String) × σ
  | [], s => (.ok deps, s)
  | tester :: rest, s =>
    match tester.TestDependencies s with
    | (.error err, s1) => (.error err, s1)
    | (.ok result, s1) => depsLoop (deps ++ result) rest s1

/-- The method `TestDependencies()`: the result `.error err` is the Go pair `nil, err`. -/
def FullTester.TestDependencies {σ : Type} (t : FullTester σ) (s : σ) :
    Except GoError (List String) × σ :=
  depsLoop [] t.runners s

/-- The loop of `runTests`: the error returned (`none` is `nil`), the writer and the state. -/
def testsLoop {σ : Type} : List (runner σ) → Output → σ → Option GoError × Output × σ
  | [], out, s => (none, out, s)
  | tester :: rest, out, s =>
    match tester.Test s with
    | (written, some err, s1) =>
      (some (.wrap ("running tests: " ++ err.Error) err), out ++ written, s1)
    | (written, none, s1) => testsLoop rest (out ++ written) s1

/-- The method `runTests(ctx, out, bRes)`. -/
def FullTester.runTests {σ : Type} (t : FullTester σ) (out : Output) (s : σ) :
    Option GoError × Output × σ :=
  testsLoop t.runners out s

/-- The method `Test(ctx, out, bRes)`. The argument `logfileCreate` is the outcome of
`logfile.Create`: the name of the log file or the error. When the tests are muted the runners
write to the log file and to a buffer, and the buffer is copied to `out` only if they fail; the
content of the log file is not part of the result. -/
def FullTester.Test {σ : Type} (t : FullTester σ) (logfileCreate : Except GoError String)
    (out : Output) (s : σ) : Option GoError × Output × σ :=
  if t.runners.length = 0 then (none, out, s)
  else
    let out1 := out ++ ["Testing images...\n"]
    if t.muted then
      match logfileCreate with
      | .error err =>
        (some (.wrap ("unable to create log file for tests: " ++ err.Error) err), out1, s)
      | .ok name =>
        let out2 := out1 ++ [" - writing logs to " ++ name ++ "\n"]
        match t.runTests [] s with
        | (some err, buf, s1) => (some err, out2 ++ buf, s1)
        | (none, _, s1) => (none, out2, s1)
    else t.runTests out1 s

/-- The function `getRunners(cfg, imagesAreLocal, tcs)`; `new tc` is
`structure.New(cfg, cfg.GetWorkingDir(), tc, imagesAreLocal)`. -/
def getRunners {σ τ : Type} (new : τ → runner σ) (tcs : List τ) : List (runner σ) :=
  tcs.foldl (fun runners tc => runners ++ [new tc]) []

/-- The function `NewTester(cfg, imagesAreLocal)`; `tcs` is `cfg.TestCases()` and `muted` is
`cfg.Muted()`. -/
def NewTester {σ τ : Type} (new : τ → runner σ) (tcs : List τ) (muted : Bool) : FullTester σ :=
  { runners := getRunners new tcs, muted := muted }

/-- Every runner of the list returns dependencies, each consulted in the state its predecessor
left: `AllDepsOk runners s deps s2` says that from the state `s` the results, concatenated in
runner order, are `deps`, and that the state left is `s2`. -/
inductive AllDepsOk {σ : Type} : List (runner σ) → σ → List String → σ → Prop where
  | nil (s : σ) : AllDepsOk [] s [] s
  | cons {r : runner σ} {rest : List (runner σ)} {s s1 s2 : σ} {result deps : List String} :
    r.TestDependencies s = (.ok result, s1) → AllDepsOk rest s1 deps s2 →
    AllDepsOk (r :: rest) s (result ++ deps) s2

/-- Every runner of the list succeeds, each invoked in the state its predecessor left:
`AllTestsPass runners s written s2` says that from the state `s` the text written, in runner
order, is `written`, and that the state left is `s2`. -/
inductive AllTestsPass {σ : Type} : List (runner σ) → σ → Output → σ → Prop where
  | nil (s : σ) : AllTestsPass [] s [] s
  | cons {r : runner σ} {rest : List (runner σ)} {s s1 s2 : σ} {written more : Output} :
    r.Test s = (written, none, s1) → AllTestsPass rest s1 more s2 →
    AllTestsPass (r :: rest) s (written ++ more) s2

/-- A runner that notes its name in the state, a list of the names of the runners invoked so
far, and then gives the outcome it was built with. -/
def sampleRunner (name : String) (deps : Except GoError (List String))
    (failure : Option GoError) : runner (List String) :=
  { Test := fun s => (["testing " ++ name ++ "\n"], failure, s ++ [name]),
    TestDependencies := fun s => (deps, s ++ [name]) }

end test

/-! ## Sample inputs -/

/-- A reader of the persisted configuration that always fails. -/
def failingReader : ConfigReader := fun _ => .error "open config: no such file or directory"

/-- A reader that finds the default repository `repo` in every configuration file. -/
def constReader (repo : String) : ConfigReader := fun _ => .ok ⟨repo⟩

/-- A descriptor for a cancelled build, with no suggestion. -/
def sampleCancelled : problem :=
  { regexp := reBuildCancelled, description := none, errCode := .other 1,
    suggestion := fun _ => [] }

/-- A descriptor for a denied push, whose suggestions are computed from the run context. -/
def samplePushDenied : problem :=
  { regexp := .lit PushImageErr.data, description := none, errCode := .other 2,
    suggestion := suggestBuildPushAccessDeniedAction failingReader }

/-- A descriptor for an unreachable Docker daemon. -/
def sampleDaemon : problem :=
  { regexp := reDockerConnectionFailed, description := none, errCode := .other 3,
    suggestion := fun _ => [⟨.other 0, "Check if docker is running"⟩] }

/-- Descriptor tables with two build problems and no init or deploy problem. -/
def sampleTables : KnownProblems :=
  { knownBuildProblems := [sampleDaemon, sampleCancelled],
    knownInitProblems := [],
    knownDeployProblems := [],
    oldImageManifest := samplePushDenied }

/-- A run context whose default repository is set on the command line. -/
def sampleRunCtx : RunContext := ⟨⟨some "myrepo.gcr.io", ""⟩⟩

/-- An error that the denied-push descriptor was matched against earlier. -/
def sampleMatched : GoError := .problem samplePushDenied (.plain "could not push image")

/-- An error of the package's own type, wrapped once. -/
def sampleWrapped : GoError :=
  .wrap "build failed: no such image"
    (.skaffold (.other 7) [⟨.other 1, "Check the image name"⟩] "no such image")

/-- A descriptor for a cancelled build that has a description formatter. -/
def sampleDescribed : problem :=
  { regexp := reBuildCancelled, description := some (fun _ => "Build Cancelled."),
    errCode := .other 4, suggestion := fun _ => [] }

/-- Descriptor tables whose only build problem has a description formatter. -/
def sampleTablesDescribed : KnownProblems :=
  { knownBuildProblems := [sampleDescribed],
    knownInitProblems := [],
    knownDeployProblems := [],
    oldImageManifest := samplePushDenied }

/-- A message of the Docker client when the daemon is not reachable. -/
def sampleDaemonMessage : String :=
  "Cannot connect to the Docker daemon at unix:///var/run/docker.sock. Is the docker daemon running?"

/-! ## Lemmas on matching: the derivative matcher decides the language -/

namespace Regex

theorem matches_fail_iff (w : List Char) : Matches .fail w ↔ False :=
  ⟨fun h => (by cases h), False.elim⟩

theorem matches_empty_iff (w : List Char) : Matches .empty w ↔ w = [] :=
  ⟨fun h => (by cases h; rfl), fun h => h ▸ Matches.empty⟩

theorem matches_char_iff (c : Char) (w : List Char) : Matches (.char c) w ↔ w = [c] :=
  ⟨fun h => (by cases h; rfl), fun h => h ▸ Matches.char c⟩

theorem matches_dot_iff (w : List Char) : Matches .dot w ↔ ∃ a, a ≠ lineFeed ∧ w = [a] :=
  ⟨fun h => (by cases h with | dot a ha => exact ⟨a, ha, rfl⟩),
   fun ⟨a, ha, hw⟩ => hw ▸ Matches.dot a ha⟩

theorem matches_cat_iff (r s : Regex) (w : List Char) :
    Matches (.cat r s) w ↔ ∃ u v, w = u ++ v ∧ Matches r u ∧ Matches s v :=
  ⟨fun h => (by cases h with | cat hu hv => exact ⟨_, _, rfl, hu, hv⟩),
   fun ⟨_, _, hw, hu, hv⟩ => hw ▸ Matches.cat hu hv⟩

theorem matches_alt_iff (r s : Regex) (w : List Char) :
    Matches (.alt r s) w ↔ Matches r w ∨ Matches s w :=
  ⟨fun h => (by
    cases h with
    | altLeft h => exact Or.inl h
    | altRight h => exact Or.inr h),
   fun h => h.elim Matches.altLeft Matches.altRight⟩

/-- A non-empty match of `r*` starts with a non-empty match of `r`. -/
theorem matches_star_cons (r : Regex) (a : Char) (w : List Char)
    (h : Matches (.star r) (a :: w)) :
    ∃ u v, w = u ++ v ∧ Matches r (a :: u) ∧ Matches (.star r) v := by
  generalize hre : Regex.star r = re at h
  generalize hx : a :: w = x at h
  induction h generalizing w with
  | empty => cases hre
  | char c => cases hre
  | dot b hb => cases hre
  | cat _ _ _ _ => cases hre
  | altLeft _ _ => cases hre
  | altRight _ _ => cases hre
  | starNil => cases hx
  | @starCons r2 u v hu hv _ ihv =>
    cases hre
    cases u with
    | nil => exact ihv w rfl (by simpa using hx)
    | cons b u2 =>
      simp only [List.cons_append, List.cons.injEq] at hx
      obtain ⟨hab, hw⟩ := hx
      subst hab
      exact ⟨u2, v, hw, hu, hv⟩

theorem nullable_iff (r : Regex) : r.nullable = true ↔ Matches r [] := by
  induction r with
  | fail => simp [nullable, matches_fail_iff]
  | empty => simp [nullable, matches_empty_iff]
  | char c => simp [nullable, matches_char_iff]
  | dot => simp [nullable, matches_dot_iff]
  | cat r s ihr ihs =>
    simp only [nullable, Bool.and_eq_true, ihr, ihs, matches_cat_iff]
    constructor
    · rintro ⟨hr, hs⟩
      exact ⟨[], [], rfl, hr, hs⟩
    · rintro ⟨u, v, huv, hr, hs⟩
      obtain ⟨hu, hv⟩ := List.append_eq_nil.1 huv.symm
      subst hu
      subst hv
      exact ⟨hr, hs⟩
  | alt r s ihr ihs => simp [nullable, ihr, ihs, matches_alt_iff]
  | star r _ => simp [nullable, Matches.starNil]

theorem deriv_iff (r : Regex) (a : Char) (w : List Char) :
    Matches (r.deriv a) w ↔ Matches r (a :: w) := by
  induction r generalizing w with
  | fail => simp [deriv, matches_fail_iff]
  | empty => simp [deriv, matches_fail_iff, matches_empty_iff]
  | char c =>
    by_cases h : a = c
    · simp [deriv, h, matches_empty_iff, matches_char_iff]
    · simp [deriv, h, matches_fail_iff, matches_char_iff]
  | dot =>
    by_cases h : a = lineFeed
    · simp only [deriv, h, if_true, matches_fail_iff, matches_dot_iff, false_iff]
      rintro ⟨b, hb, hw⟩
      simp only [List.cons.injEq] at hw
      exact hb hw.1.symm
    · simp only [deriv, h, if_false, matches_empty_iff, matches_dot_iff]
      constructor
      · rintro rfl
        exact ⟨a, h, rfl⟩
      · rintro ⟨b, _, hb⟩
        simp only [List.cons.injEq] at hb
        exact hb.2
  | cat r s ihr ihs =>
    have hcat : Matches (.cat (r.deriv a) s) w → Matches (.cat r s) (a :: w) := by
      rintro h
      obtain ⟨u, v, hw, hu, hv⟩ := (matches_cat_iff _ _ _).1 h
      subst hw
      exact Matches.cat ((ihr u).1 hu) hv
    have hinv : Matches (.cat r s) (a :: w) →
        Matches (.cat (r.deriv a) s) w ∨ (Matches r [] ∧ Matches s (a :: w)) := by
      intro h
      obtain ⟨u, v, hw, hu, hv⟩ := (matches_cat_iff _ _ _).1 h
      cases u with
      | nil =>
        simp only [List.nil_append] at hw
        subst hw
        exact Or.inr ⟨hu, hv⟩
      | cons b u2 =>
        simp only [List.cons_append, List.cons.injEq] at hw
        obtain ⟨hab, hw⟩ := hw
        subst hab
        subst hw
        exact Or.inl (Matches.cat ((ihr u2).2 hu) hv)
    by_cases hn : r.nullable = true
    · simp only [deriv, hn, if_true, matches_alt_iff]
      constructor
      · rintro (h | h)
        · exact hcat h
        · have := Matches.cat ((nullable_iff r).1 hn) ((ihs w).1 h)
          simpa using this
      · intro h
        rcases hinv h with h | ⟨_, h⟩
        · exact Or.inl h
        · exact Or.inr ((ihs w).2 h)
    · simp only [deriv, hn, if_false]
      constructor
      · exact hcat
      · intro h
        rcases hinv h with h | ⟨h, _⟩
        · exact h
        · exact absurd ((nullable_iff r).2 h) hn
  | alt r s ihr ihs => simp [deriv, matches_alt_iff, ihr, ihs]
  | star r ih =>
    simp only [deriv, matches_cat_iff]
    constructor
    · rintro ⟨u, v, hw, hu, hv⟩
      subst hw
      have := Matches.starCons ((ih u).1 hu) hv
      simpa using this
    · intro h
      obtain ⟨u, v, hw, hu, hv⟩ := matches_star_cons r a w h
      exact ⟨u, v, hw, (ih u).2 hu, hv⟩

theorem fullMatch_iff (r : Regex) (w : List Char) : r.fullMatch w = true ↔ Matches r w := by
  induction w generalizing r with
  | nil => simp [fullMatch, nullable_iff]
  | cons a as ih => simp [fullMatch, ih, deriv_iff]

/-- The function `matchAt` decides whether some initial segment of the input is in the language. -/
theorem matchAt_iff (r : Regex) (w : List Char) :
    r.matchAt w = true ↔ ∃ u v, w = u ++ v ∧ Matches r u := by
  induction w generalizing r with
  | nil =>
    simp only [matchAt, nullable_iff]
    constructor
    · intro h
      exact ⟨[], [], rfl, h⟩
    · rintro ⟨u, v, huv, hu⟩
      obtain ⟨hu2, _⟩ := List.append_eq_nil.1 huv.symm
      subst hu2
      exact hu
  | cons a as ih =>
    simp only [matchAt, Bool.or_eq_true, nullable_iff, ih]
    constructor
    · rintro (h | ⟨u, v, hw, hu⟩)
      · exact ⟨[], a :: as, rfl, h⟩
      · subst hw
        exact ⟨a :: u, v, rfl, (deriv_iff r a u).1 hu⟩
    · rintro ⟨u, v, hw, hu⟩
      cases u with
      | nil => exact Or.inl hu
      | cons b u2 =>
        simp only [List.cons_append, List.cons.injEq] at hw
        obtain ⟨hab, hw⟩ := hw
        subst hab
        exact Or.inr ⟨u2, v, hw, (deriv_iff r a u2).2 hu⟩

/-- The function `search` decides whether some segment of the input is in the language. -/
theorem search_iff (r : Regex) (w : List Char) :
    r.search w = true ↔ ∃ t u v, w = t ++ u ++ v ∧ Matches r u := by
  induction w with
  | nil =>
    simp only [search, matchAt_iff]
    constructor
    · rintro ⟨u, v, hw, hu⟩
      exact ⟨[], u, v, by simpa using hw, hu⟩
    · rintro ⟨t, u, v, hw, hu⟩
      have h1 := List.append_eq_nil.1 hw.symm
      have h2 := List.append_eq_nil.1 h1.1
      exact ⟨u, v, by simp [h1.2, h2.2], hu⟩
  | cons a as ih =>
    simp only [search, Bool.or_eq_true, ih, matchAt_iff]
    constructor
    · rintro (⟨u, v, hw, hu⟩ | ⟨t, u, v, hw, hu⟩)
      · exact ⟨[], u, v, by simpa using hw, hu⟩
      · exact ⟨a :: t, u, v, by simp [hw], hu⟩
    · rintro ⟨t, u, v, hw, hu⟩
      cases t with
      | nil => exact Or.inl ⟨u, v, by simpa using hw, hu⟩
      | cons b t2 =>
        simp only [List.cons_append, List.cons.injEq] at hw
        exact Or.inr ⟨t2, u, v, by simpa using hw.2, hu⟩

theorem matches_lit_iff (l w : List Char) : Matches (lit l) w ↔ w = l := by
  induction l generalizing w with
  | nil => simp [lit, matches_empty_iff]
  | cons c cs ih =>
    simp only [lit, matches_cat_iff, matches_char_iff, ih]
    constructor
    · rintro ⟨u, v, hw, hu, hv⟩
      subst hu
      subst hv
      simpa using hw
    · intro hw
      exact ⟨[c], cs, by simpa using hw, rfl, rfl⟩

/-- The expression `.*` matches exactly the texts without a line feed. -/
theorem matches_star_dot_iff (w : List Char) :
    Matches (.star .dot) w ↔ ∀ c ∈ w, c ≠ lineFeed := by
  constructor
  · intro h
    generalize hre : Regex.star Regex.dot = re at h
    induction h with
    | empty => cases hre
    | char c => cases hre
    | dot b hb => cases hre
    | cat _ _ _ _ => cases hre
    | altLeft _ _ => cases hre
    | altRight _ _ => cases hre
    | starNil => simp
    | @starCons r2 u v hu hv _ ihv =>
      cases hre
      obtain ⟨a, ha, hua⟩ := (matches_dot_iff u).1 hu
      subst hua
      intro c hc
      simp only [List.singleton_append, List.mem_cons] at hc
      rcases hc with rfl | hc
      · exact ha
      · exact ihv rfl c hc
  · intro h
    induction w with
    | nil => exact Matches.starNil
    | cons a as ih =>
      have ha : a ≠ lineFeed := h a (List.mem_cons_self _ _)
      have hrest : ∀ c ∈ as, c ≠ lineFeed := fun c hc => h c (List.mem_cons_of_mem _ hc)
      have := Matches.starCons (Matches.dot a ha) (ih hrest)
      simpa using this

end Regex

/-- The function `MatchString` decides whether some segment of the string is in the language of
the expression. -/
theorem MatchString_iff (r : Regex) (s : String) :
    MatchString r s = true ↔ ∃ t u v, s.data = t ++ u ++ v ∧ r.Matches u :=
  Regex.search_iff r s.data

/-- The pattern of `makeAuthSuggestionsForRepo` matches exactly the strings that contain the
text `gcr.io`. -/
theorem MatchString_reGcr_iff (repo : String) :
    MatchString reGcr repo = true ↔ "gcr.io".data <:+: repo.data := by
  rw [MatchString_iff]
  constructor
  · rintro ⟨t, u, v, hw, hu⟩
    simp only [reGcr, Regex.matches_cat_iff, Regex.matches_lit_iff, Regex.matches_char_iff] at hu
    obtain ⟨u1, u2, hu12, _, u3, u4, hu34, hu3, u5, u6, hu56, hu5, u7, u8, hu78, hu7, _⟩ := hu
    subst hu3 hu5 hu7 hu78 hu56 hu34 hu12
    exact ⟨t ++ u1, u8 ++ v, by simp [hw]⟩
  · rintro ⟨t, v, hw⟩
    refine ⟨t, "gcr.io".data, v, hw.symm, ?_⟩
    have h1 : Regex.Matches (.opt (.cat (.plus .dot) (.char '.'))) [] :=
      Regex.Matches.altRight Regex.Matches.empty
    have h2 : Regex.Matches (.cat (.lit "gcr".data) (.cat (.char '.')
        (.cat (.lit "io".data) (.star .dot)))) "gcr.io".data :=
      Regex.Matches.cat (u := "gcr".data) (v := ".io".data)
        ((Regex.matches_lit_iff _ _).2 rfl)
        (Regex.Matches.cat (u := ['.']) (v := "io".data) (Regex.Matches.char '.')
          (Regex.Matches.cat (u := "io".data) (v := [])
            ((Regex.matches_lit_iff _ _).2 rfl) Regex.Matches.starNil))
    exact Regex.Matches.cat (u := []) h1 h2

/-- The hint of `makeAuthSuggestionsForRepo` is the provider-specific one exactly when the text
`gcr.io` occurs somewhere in the repository string, and the generic one otherwise. -/
theorem makeAuthSuggestionsForRepo_eq (repo : String) :
    ("gcr.io".data <:+: repo.data →
      makeAuthSuggestionsForRepo repo =
        ⟨.GCLOUD_DOCKER_AUTH_CONFIGURE, "try `gcloud auth configure-docker`"⟩) ∧
    (¬ "gcr.io".data <:+: repo.data →
      makeAuthSuggestionsForRepo repo = ⟨.DOCKER_AUTH_CONFIGURE, "try `docker login`"⟩) := by
  constructor
  · intro h
    simp [makeAuthSuggestionsForRepo, (MatchString_reGcr_iff repo).2 h]
  · intro h
    have hf : MatchString reGcr repo = false := by
      cases hm : MatchString reGcr repo with
      | false => rfl
      | true => exact absurd ((MatchString_reGcr_iff repo).1 hm) h
    simp [makeAuthSuggestionsForRepo, hf]

/-! ## Lemmas on matching: the catch-all pattern -/

theorem Regex.matchAt_of_nullable (r : Regex) (s : List Char) (h : r.nullable = true) :
    r.matchAt s = true := by
  cases s <;> simp [Regex.matchAt, h]

theorem Regex.search_of_matchAt (r : Regex) (s : List Char) (h : r.matchAt s = true) :
    r.search s = true := by
  cases s with
  | nil => simpa [Regex.search] using h
  | cons a as => simp [Regex.search, h]

/-- The pattern `.*` matches every string: the empty match at position zero. -/
theorem MatchString_reAll (s : String) : MatchString reAll s = true :=
  Regex.search_of_matchAt _ _ (Regex.matchAt_of_nullable _ _ rfl)

/-! ## Lemmas on the descriptor loop -/

theorem firstMatch_of_none_match (rc : RunContext) (msg : String) (l rest : List problem)
    (h : ∀ d ∈ l, MatchString d.regexp msg = false) :
    firstMatch rc msg (l ++ rest) = firstMatch rc msg rest := by
  induction l with
  | nil => rfl
  | cons v vs ih =>
    have hv : MatchString v.regexp msg = false := h v (List.mem_cons_self _ _)
    have hvs : ∀ d ∈ vs, MatchString d.regexp msg = false :=
      fun d hd => h d (List.mem_cons_of_mem _ hd)
    simp [firstMatch, hv, ih hvs]

theorem firstMatch_catchAll (rc : RunContext) (msg : String) (code : proto.StatusCode)
    (rest : List problem) :
    firstMatch rc msg (catchAll code :: rest) = some (code, [⟨.OPEN_ISSUE, reportIssueText⟩]) := by
  simp [firstMatch, catchAll, MatchString_reAll, reportIssueSuggestion]

theorem firstMatch_of_mem (rc : RunContext) (msg : String) (l : List problem)
    (h : ∃ d ∈ l, MatchString d.regexp msg = true) :
    ∃ d ∈ l, MatchString d.regexp msg = true ∧
      firstMatch rc msg l = some (d.errCode, d.suggestion rc) := by
  induction l with
  | nil => simp at h
  | cons v vs ih =>
    by_cases hv : MatchString v.regexp msg = true
    · exact ⟨v, List.mem_cons_self _ _, hv, by simp [firstMatch, hv]⟩
    · obtain ⟨d, hd, hm⟩ := h
      rcases List.mem_cons.1 hd with rfl | hd
      · exact absurd hm hv
      · obtain ⟨e, he, hem, hfe⟩ := ih ⟨d, hd, hm⟩
        exact ⟨e, List.mem_cons_of_mem _ he, hem, by simp [firstMatch, hv, hfe]⟩

theorem firstMatch_get (rc : RunContext) (msg : String) (l : List problem) (i : Nat)
    (hi : i < l.length) (hmatch : MatchString (l.get ⟨i, hi⟩).regexp msg = true)
    (hfirst : ∀ j (hj : j < l.length), j < i → MatchString (l.get ⟨j, hj⟩).regexp msg = false) :
    firstMatch rc msg l = some ((l.get ⟨i, hi⟩).errCode, (l.get ⟨i, hi⟩).suggestion rc) := by
  induction l generalizing i with
  | nil => simp at hi
  | cons v vs ih =>
    cases i with
    | zero =>
      have hv : MatchString v.regexp msg = true := by simpa using hmatch
      simp [firstMatch, hv]
    | succ k =>
      have hv : MatchString v.regexp msg = false := by
        simpa using hfirst 0 (Nat.succ_pos _) (Nat.succ_pos _)
      have hk : k < vs.length := Nat.lt_of_succ_lt_succ hi
      have hrec := ih k hk (by simpa using hmatch)
        (fun j hj hjk => by simpa using hfirst (j + 1) (Nat.succ_lt_succ hj) (Nat.succ_lt_succ hjk))
      simpa [firstMatch, hv] using hrec

/-- Unfolding of `getErrorCodeFromError` for an error that carries no classification. -/
theorem getErrorCodeFromError_unclassified (K : KnownProblems) (rc : RunContext) (phase : Phase)
    (err : GoError) (h1 : err.asSkaffoldErr = none) (h2 : err.asProblem = none) :
    getErrorCodeFromError K rc phase err =
      match allErrors K phase with
      | some problems =>
        match firstMatch rc err.Error problems with
        | some result => result
        | none => (.UNKNOWN_ERROR, [])
      | none => (.UNKNOWN_ERROR, []) := by
  simp [getErrorCodeFromError, h1, h2]

/-- Every registered phase has a list, and the list ends in a catch-all. -/
theorem allErrors_registered (K : KnownProblems) (phase : Phase)
    (hphase : phase ∈ [Init, Build, Deploy, StatusCheck, FileSync, DevInit, Cleanup]) :
    ∃ known code, allErrors K phase = some (known ++ [catchAll code]) := by
  simp only [List.mem_cons, List.mem_singleton, List.not_mem_nil, or_false] at hphase
  rcases hphase with h | h | h | h | h | h | h <;> subst h
  · exact ⟨K.knownInitProblems, .INIT_UNKNOWN, by rfl⟩
  · exact ⟨K.knownBuildProblems, .BUILD_UNKNOWN, by rfl⟩
  · exact ⟨K.knownDeployProblems, .DEPLOY_UNKNOWN, by rfl⟩
  · exact ⟨[], .STATUSCHECK_UNKNOWN, by rfl⟩
  · exact ⟨[], .SYNC_UNKNOWN, by rfl⟩
  · exact ⟨[K.oldImageManifest], .DEVINIT_UNKNOWN, by rfl⟩
  · exact ⟨[], .CLEANUP_UNKNOWN, by rfl⟩

/-- The phases that are not keys of `allErrors` have no list. -/
theorem allErrors_unregistered (K : KnownProblems) (phase : Phase)
    (hphase : phase ∉ [Init, Build, Deploy, StatusCheck, FileSync, DevInit, Cleanup]) :
    allErrors K phase = none := by
  simp only [List.mem_cons, List.mem_singleton, List.not_mem_nil, or_false, not_or] at hphase
  obtain ⟨h1, h2, h3, h4, h5, h6, h7⟩ := hphase
  have e1 : (phase == Init) = false := by simpa using h1
  have e2 : (phase == Build) = false := by simpa using h2
  have e3 : (phase == Deploy) = false := by simpa using h3
  have e4 : (phase == StatusCheck) = false := by simpa using h4
  have e5 : (phase == FileSync) = false := by simpa using h5
  have e6 : (phase == DevInit) = false := by simpa using h6
  have e7 : (phase == Cleanup) = false := by simpa using h7
  simp only [allErrors, allErrorsEntries, List.lookup, e1, e2, e3, e4, e5, e6, e7]

/-- The catch-all is reached when no descriptor before it matches. -/
theorem getErrorCodeFromError_of_none_match (K : KnownProblems) (rc : RunContext)
    (phase : Phase) (err : GoError) (known : List problem) (code : proto.StatusCode)
    (h1 : err.asSkaffoldErr = none) (h2 : err.asProblem = none)
    (hreg : allErrors K phase = some (known ++ [catchAll code]))
    (hnone : ∀ d ∈ known, MatchString d.regexp err.Error = false) :
    getErrorCodeFromError K rc phase err = (code, [⟨.OPEN_ISSUE, reportIssueText⟩]) := by
  rw [getErrorCodeFromError_unclassified K rc phase err h1 h2, hreg]
  simp only [firstMatch_of_none_match rc err.Error known _ hnone, firstMatch_catchAll]

/-! ## Classification -/

/-- C1: for each of the seven registered phases and every error that carries no classification,
whatever its message, the descriptor loop of `getErrorCodeFromError` returns at some descriptor
of `allErrors[phase]` whose pattern matches the message, and the result is that descriptor's
status code and suggestions: the final `return UNKNOWN_ERROR, nil` is not reached. -/
theorem getErrorCodeFromError_total (K : KnownProblems) (rc : RunContext) (phase : Phase)
    (err : GoError)
    (hphase : phase ∈ [Init, Build, Deploy, StatusCheck, FileSync, DevInit, Cleanup])
    (h1 : err.asSkaffoldErr = none) (h2 : err.asProblem = none) :
    ∃ problems, allErrors K phase = some problems ∧
      ∃ d ∈ problems, MatchString d.regexp err.Error = true ∧
        firstMatch rc err.Error problems = some (d.errCode, d.suggestion rc) ∧
        getErrorCodeFromError K rc phase err = (d.errCode, d.suggestion rc) := by
  obtain ⟨known, code, hreg⟩ := allErrors_registered K phase hphase
  refine ⟨known ++ [catchAll code], hreg, ?_⟩
  have hex : ∃ d ∈ known ++ [catchAll code], MatchString d.regexp err.Error = true :=
    ⟨catchAll code, by simp, MatchString_reAll _⟩
  obtain ⟨d, hd, hm, hf⟩ := firstMatch_of_mem rc err.Error _ hex
  refine ⟨d, hd, hm, hf, ?_⟩
  rw [getErrorCodeFromError_unclassified K rc phase err h1 h2, hreg]
  simp only [hf]

/-- Witness of C1: an empty message and a message with a line feed, in the phase `Cleanup`. -/
theorem getErrorCodeFromError_total_witness :
    (∃ problems, allErrors sampleTables Cleanup = some problems ∧
      ∃ d ∈ problems, MatchString d.regexp (GoError.plain "").Error = true ∧
        firstMatch sampleRunCtx (GoError.plain "").Error problems =
          some (d.errCode, d.suggestion sampleRunCtx) ∧
        getErrorCodeFromError sampleTables sampleRunCtx Cleanup (.plain "") =
          (d.errCode, d.suggestion sampleRunCtx)) ∧
    getErrorCodeFromError sampleTables sampleRunCtx Cleanup (.plain "a\nb") =
      (.CLEANUP_UNKNOWN, [⟨.OPEN_ISSUE, reportIssueText⟩]) :=
  ⟨getErrorCodeFromError_total sampleTables sampleRunCtx Cleanup (.plain "")
    (by decide) rfl rfl, by decide⟩

/-- C2: first match wins in declaration order. For a phase with a list and an error that carries
no classification, if the descriptor at index `i` matches the message and no descriptor at a
smaller index does, the result is the status code and the suggestions of the descriptor at
index `i`, whatever the later descriptors (the catch-all included) are. -/
theorem getErrorCodeFromError_first_match (K : KnownProblems) (rc : RunContext) (phase : Phase)
    (err : GoError) (problems : List problem) (i : Nat) (hi : i < problems.length)
    (h1 : err.asSkaffoldErr = none) (h2 : err.asProblem = none)
    (hreg : allErrors K phase = some problems)
    (hmatch : MatchString (problems.get ⟨i, hi⟩).regexp err.Error = true)
    (hfirst : ∀ j (hj : j < problems.length), j < i →
      MatchString (problems.get ⟨j, hj⟩).regexp err.Error = false) :
    getErrorCodeFromError K rc phase err =
      ((problems.get ⟨i, hi⟩).errCode, (problems.get ⟨i, hi⟩).suggestion rc) := by
  rw [getErrorCodeFromError_unclassified K rc phase err h1 h2, hreg]
  simp only [firstMatch_get rc err.Error problems i hi hmatch hfirst]

/-- Witness of C2: in the phase `Build` the message `context canceled` is matched by the second
descriptor and by the catch-all after it, not by the first; the second descriptor wins. -/
theorem getErrorCodeFromError_first_match_witness :
    getErrorCodeFromError sampleTables sampleRunCtx Build (.plain "context canceled") =
      (sampleCancelled.errCode, sampleCancelled.suggestion sampleRunCtx) ∧
    MatchString (catchAll .BUILD_UNKNOWN).regexp "context canceled" = true :=
  ⟨getErrorCodeFromError_first_match sampleTables sampleRunCtx Build (.plain "context canceled")
    [sampleDaemon, sampleCancelled, catchAll .BUILD_UNKNOWN] 1 (by decide) rfl rfl rfl
    (by decide)
    (fun j _ hji => by
      have hj0 : j = 0 := by omega
      subst hj0
      show MatchString sampleDaemon.regexp "context canceled" = false
      decide),
   by decide⟩

/-- Counterexample to C3 as stated: an error that is a previously matched problem is classified
with different suggestion lists under two run contexts. -/
theorem getErrorCodeFromError_problem_runCtx_dependent :
    sampleMatched.asProblem.isSome = true ∧
    getErrorCodeFromError sampleTables sampleRunCtx Build sampleMatched =
      (.other 2, [⟨.CHECK_DEFAULT_REPO, "Check your `--default-repo` value"⟩,
        ⟨.GCLOUD_DOCKER_AUTH_CONFIGURE, "try `gcloud auth configure-docker`"⟩]) ∧
    getErrorCodeFromError sampleTables RunContext.zero Build sampleMatched =
      (.other 2, [⟨.ADD_DEFAULT_REPO, "Trying running with `--default-repo` flag"⟩]) ∧
    getErrorCodeFromError sampleTables sampleRunCtx Build sampleMatched ≠
      getErrorCodeFromError sampleTables RunContext.zero Build sampleMatched := by
  refine ⟨rfl, ?_, ?_, ?_⟩ <;> decide

/-- C3, amended: an already-classified error is never reclassified. If the error is, or wraps, a
value of the type `Error`, the result is that value's own status code and suggestion list, for
every phase, message, descriptor table and run context. Otherwise, if it is, or wraps, a matched
problem, the result is the problem's status code and the suggestions its generator computes from
the current run context, for every phase, message and descriptor table. -/
theorem getErrorCodeFromError_classified (K : KnownProblems) (rc : RunContext) (phase : Phase)
    (err : GoError) :
    (∀ code suggestions, err.asSkaffoldErr = some (code, suggestions) →
      getErrorCodeFromError K rc phase err = (code, suggestions)) ∧
    (∀ p, err.asSkaffoldErr = none → err.asProblem = some p →
      getErrorCodeFromError K rc phase err = (p.errCode, p.suggestion rc)) := by
  constructor
  · intro code suggestions h
    simp [getErrorCodeFromError, h]
  · intro p h1 h2
    simp [getErrorCodeFromError, h1, h2]

/-- Witness of C3, amended: a wrapped `Error` value and a matched problem. -/
theorem getErrorCodeFromError_classified_witness :
    getErrorCodeFromError sampleTables sampleRunCtx Deploy sampleWrapped =
      (.other 7, [⟨.other 1, "Check the image name"⟩]) ∧
    getErrorCodeFromError sampleTables sampleRunCtx Deploy sampleMatched =
      (samplePushDenied.errCode, samplePushDenied.suggestion sampleRunCtx) :=
  ⟨(getErrorCodeFromError_classified sampleTables sampleRunCtx Deploy sampleWrapped).1 _ _ rfl,
   (getErrorCodeFromError_classified sampleTables sampleRunCtx Deploy sampleMatched).2 _ rfl rfl⟩

/-- C4: for a phase that is not a key of `allErrors` and an error that carries no classification,
the result is `UNKNOWN_ERROR` with no suggestion, whatever the message. -/
theorem getErrorCodeFromError_unregistered (K : KnownProblems) (rc : RunContext) (phase : Phase)
    (err : GoError)
    (hphase : phase ∉ [Init, Build, Deploy, StatusCheck, FileSync, DevInit, Cleanup])
    (h1 : err.asSkaffoldErr = none) (h2 : err.asProblem = none) :
    getErrorCodeFromError K rc phase err = (.UNKNOWN_ERROR, []) := by
  rw [getErrorCodeFromError_unclassified K rc phase err h1 h2,
    allErrors_unregistered K phase hphase]

/-- Witness of C4: the phase `Test` has no list. -/
theorem getErrorCodeFromError_unregistered_witness :
    getErrorCodeFromError sampleTables sampleRunCtx "Test" (.plain "context canceled") =
      (.UNKNOWN_ERROR, []) :=
  getErrorCodeFromError_unregistered sampleTables sampleRunCtx "Test"
    (.plain "context canceled") (by decide) rfl rfl

/-- C5: in each of the seven registered phases, an error that carries no classification and
matches no descriptor before the last one of the phase's list gets the code `*_UNKNOWN` of the
phase and the single suggestion `OPEN_ISSUE` with the text `reportIssueText`, under every run
context. In `StatusCheck`, `FileSync` and `Cleanup` this holds for every such error. -/
theorem getErrorCodeFromError_catchAll (K : KnownProblems) (rc : RunContext) (err : GoError)
    (h1 : err.asSkaffoldErr = none) (h2 : err.asProblem = none) :
    (∀ phase code problems,
      (phase, code) ∈ [(Build, proto.StatusCode.BUILD_UNKNOWN), (Init, .INIT_UNKNOWN),
        (Deploy, .DEPLOY_UNKNOWN), (StatusCheck, .STATUSCHECK_UNKNOWN),
        (FileSync, .SYNC_UNKNOWN), (DevInit, .DEVINIT_UNKNOWN), (Cleanup, .CLEANUP_UNKNOWN)] →
      allErrors K phase = some problems →
      (∀ d ∈ problems.dropLast, MatchString d.regexp err.Error = false) →
      getErrorCodeFromError K rc phase err = (code, [⟨.OPEN_ISSUE, reportIssueText⟩])) ∧
    (∀ phase code,
      (phase, code) ∈ [(StatusCheck, proto.StatusCode.STATUSCHECK_UNKNOWN),
        (FileSync, .SYNC_UNKNOWN), (Cleanup, .CLEANUP_UNKNOWN)] →
      getErrorCodeFromError K rc phase err = (code, [⟨.OPEN_ISSUE, reportIssueText⟩])) := by
  have key : ∀ phase code known problems,
      allErrors K phase = some (known ++ [catchAll code]) →
      allErrors K phase = some problems →
      (∀ d ∈ problems.dropLast, MatchString d.regexp err.Error = false) →
      getErrorCodeFromError K rc phase err = (code, [⟨.OPEN_ISSUE, reportIssueText⟩]) := by
    intro phase code known problems hreg hp hnone
    have hpe : problems = known ++ [catchAll code] := by
      rw [hreg] at hp
      exact (Option.some.inj hp).symm
    subst hpe
    rw [List.dropLast_concat] at hnone
    exact getErrorCodeFromError_of_none_match K rc phase err known code h1 h2 hreg hnone
  constructor
  · intro phase code problems hmem hp hnone
    simp only [List.mem_cons, List.mem_singleton, List.not_mem_nil, or_false,
      Prod.mk.injEq] at hmem
    rcases hmem with ⟨hph, hc⟩ | ⟨hph, hc⟩ | ⟨hph, hc⟩ | ⟨hph, hc⟩ | ⟨hph, hc⟩ | ⟨hph, hc⟩ |
      ⟨hph, hc⟩ <;> subst hph <;> subst hc
    · exact key _ _ K.knownBuildProblems problems rfl hp hnone
    · exact key _ _ K.knownInitProblems problems rfl hp hnone
    · exact key _ _ K.knownDeployProblems problems rfl hp hnone
    · exact key _ _ [] problems rfl hp hnone
    · exact key _ _ [] problems rfl hp hnone
    · exact key _ _ [K.oldImageManifest] problems rfl hp hnone
    · exact key _ _ [] problems rfl hp hnone
  · intro phase code hmem
    simp only [List.mem_cons, List.mem_singleton, List.not_mem_nil, or_false,
      Prod.mk.injEq] at hmem
    rcases hmem with ⟨hph, hc⟩ | ⟨hph, hc⟩ | ⟨hph, hc⟩ <;> subst hph <;> subst hc
    · exact key _ _ [] _ rfl rfl (by simp [catchAll])
    · exact key _ _ [] _ rfl rfl (by simp [catchAll])
    · exact key _ _ [] _ rfl rfl (by simp [catchAll])

/-- Witness of C5: a message that no build descriptor matches, and any message in `FileSync`. -/
theorem getErrorCodeFromError_catchAll_witness :
    getErrorCodeFromError sampleTables sampleRunCtx Build (.plain "disk full") =
      (.BUILD_UNKNOWN, [⟨.OPEN_ISSUE, reportIssueText⟩]) ∧
    getErrorCodeFromError sampleTables RunContext.zero FileSync (.plain "context canceled") =
      (.SYNC_UNKNOWN, [⟨.OPEN_ISSUE, reportIssueText⟩]) :=
  ⟨(getErrorCodeFromError_catchAll sampleTables sampleRunCtx (.plain "disk full") rfl rfl).1
      Build .BUILD_UNKNOWN [sampleDaemon, sampleCancelled, catchAll .BUILD_UNKNOWN]
      (by simp) rfl (by decide),
   (getErrorCodeFromError_catchAll sampleTables RunContext.zero (.plain "context canceled")
      rfl rfl).2 FileSync .SYNC_UNKNOWN (by simp)⟩

/-! ## The run-context holder -/

/-- C6: the holder is write-once. Before any call it is unset and holds the zero-value run
context; after the calls `rc1, rc2, ..., rcn` with `n ≥ 1` it is set and holds `rc1`; and a call
that follows another call leaves the state unchanged. -/
theorem SetRunContext_write_once :
    Holder.initial.done = false ∧ Holder.initial.runCtx = RunContext.zero ∧
    (∀ rc1 rest, setRunContexts (rc1 :: rest) Holder.initial = ⟨true, rc1⟩) ∧
    (∀ rc rc2 h, (SetRunContext rc h).done = true ∧
      SetRunContext rc2 (SetRunContext rc h) = SetRunContext rc h) := by
  have hset : ∀ rc (h : Holder), (SetRunContext rc h).done = true := by
    intro rc h
    unfold SetRunContext
    split <;> simp_all
  have hnoop : ∀ rc (h : Holder), h.done = true → SetRunContext rc h = h := by
    intro rc h hd
    simp [SetRunContext, hd]
  have hfold : ∀ (rcs : List RunContext) (h : Holder), h.done = true →
      setRunContexts rcs h = h := by
    intro rcs
    induction rcs with
    | nil => intro h _; rfl
    | cons rc rest ih =>
      intro h hd
      show setRunContexts rest (SetRunContext rc h) = h
      rw [hnoop rc h hd]
      exact ih h hd
  refine ⟨rfl, rfl, ?_, ?_⟩
  · intro rc1 rest
    show setRunContexts rest (SetRunContext rc1 Holder.initial) = ⟨true, rc1⟩
    exact hfold rest ⟨true, rc1⟩ rfl
  · intro rc rc2 h
    exact ⟨hset rc h, hnoop rc2 _ (hset rc h)⟩

/-! ## Suggestions for a denied push or pull -/

/-- C7: when the default repository is set on the command line to `r`, the suggestions are
`CHECK_DEFAULT_REPO` followed by `makeAuthSuggestionsForRepo r`, whatever the reader of the
persisted configuration returns; for `myrepo.gcr.io` they are `CHECK_DEFAULT_REPO` and
`GCLOUD_DOCKER_AUTH_CONFIGURE`. -/
theorem suggestBuildPushAccessDeniedAction_override :
    (∀ (g : ConfigReader) (rc : RunContext) (r : String), rc.Opts.DefaultRepo = some r →
      suggestBuildPushAccessDeniedAction g rc =
        [⟨.CHECK_DEFAULT_REPO, "Check your `--default-repo` value"⟩,
          makeAuthSuggestionsForRepo r]) ∧
    (∀ g : ConfigReader, suggestBuildPushAccessDeniedAction g ⟨⟨some "myrepo.gcr.io", ""⟩⟩ =
      [⟨.CHECK_DEFAULT_REPO, "Check your `--default-repo` value"⟩,
        ⟨.GCLOUD_DOCKER_AUTH_CONFIGURE, "try `gcloud auth configure-docker`"⟩]) := by
  have general : ∀ (g : ConfigReader) (rc : RunContext) (r : String),
      rc.Opts.DefaultRepo = some r →
      suggestBuildPushAccessDeniedAction g rc =
        [⟨.CHECK_DEFAULT_REPO, "Check your `--default-repo` value"⟩,
          makeAuthSuggestionsForRepo r] := by
    intro g rc r h
    simp [suggestBuildPushAccessDeniedAction, h]
  refine ⟨general, fun g => ?_⟩
  rw [general g _ "myrepo.gcr.io" rfl]
  have hm : makeAuthSuggestionsForRepo "myrepo.gcr.io" =
      ⟨.GCLOUD_DOCKER_AUTH_CONFIGURE, "try `gcloud auth configure-docker`"⟩ := by decide
  rw [hm]

/-- Witness of C7: the default repository `docker.io/library` under two different readers. -/
theorem suggestBuildPushAccessDeniedAction_override_witness :
    suggestBuildPushAccessDeniedAction failingReader ⟨⟨some "docker.io/library", "cfg"⟩⟩ =
      [⟨.CHECK_DEFAULT_REPO, "Check your `--default-repo` value"⟩,
        makeAuthSuggestionsForRepo "docker.io/library"] ∧
    suggestBuildPushAccessDeniedAction (constReader "gcr.io/p") ⟨⟨some "docker.io/library", "cfg"⟩⟩ =
      [⟨.CHECK_DEFAULT_REPO, "Check your `--default-repo` value"⟩,
        makeAuthSuggestionsForRepo "docker.io/library"] :=
  ⟨suggestBuildPushAccessDeniedAction_override.1 failingReader _ "docker.io/library" rfl,
   suggestBuildPushAccessDeniedAction_override.1 (constReader "gcr.io/p") _
     "docker.io/library" rfl⟩

/-- C8: when the default repository is not set on the command line and the read of the persisted
configuration either fails, with any error, or yields an empty default repository, the single
suggestion is `ADD_DEFAULT_REPO`; the error of the read is not part of the result. -/
theorem suggestBuildPushAccessDeniedAction_fallback (g : ConfigReader) (rc : RunContext)
    (hrepo : rc.Opts.DefaultRepo = none)
    (hread : (∃ e, g rc.Opts.GlobalConfig = .error e) ∨
      (∃ cfg, g rc.Opts.GlobalConfig = .ok cfg ∧ cfg.DefaultRepo = "")) :
    suggestBuildPushAccessDeniedAction g rc =
      [⟨.ADD_DEFAULT_REPO, "Trying running with `--default-repo` flag"⟩] := by
  rcases hread with ⟨e, he⟩ | ⟨cfg, hc, hempty⟩
  · simp [suggestBuildPushAccessDeniedAction, hrepo, he]
  · simp [suggestBuildPushAccessDeniedAction, hrepo, hc, hempty]

/-- Witness of C8: a failed read and a configuration without default repository. -/
theorem suggestBuildPushAccessDeniedAction_fallback_witness :
    suggestBuildPushAccessDeniedAction failingReader RunContext.zero =
      [⟨.ADD_DEFAULT_REPO, "Trying running with `--default-repo` flag"⟩] ∧
    suggestBuildPushAccessDeniedAction (constReader "") RunContext.zero =
      [⟨.ADD_DEFAULT_REPO, "Trying running with `--default-repo` flag"⟩] :=
  ⟨suggestBuildPushAccessDeniedAction_fallback failingReader RunContext.zero rfl
      (Or.inl ⟨_, rfl⟩),
   suggestBuildPushAccessDeniedAction_fallback (constReader "") RunContext.zero rfl
      (Or.inr ⟨⟨""⟩, rfl, rfl⟩)⟩

/-- C9: when the default repository is not set on the command line and the persisted
configuration is read and defines the non-empty default repository `r`, the suggestions are
`CHECK_DEFAULT_REPO_GLOBAL_CONFIG` followed by `makeAuthSuggestionsForRepo r`, which is also the
second suggestion of the override branch for `r`. -/
theorem suggestBuildPushAccessDeniedAction_globalConfig (g : ConfigReader) (rc : RunContext)
    (cfg : ContextConfig) (hrepo : rc.Opts.DefaultRepo = none)
    (hread : g rc.Opts.GlobalConfig = .ok cfg) (hne : cfg.DefaultRepo ≠ "") :
    suggestBuildPushAccessDeniedAction g rc =
      [⟨.CHECK_DEFAULT_REPO_GLOBAL_CONFIG, "Check your default-repo setting in skaffold config"⟩,
        makeAuthSuggestionsForRepo cfg.DefaultRepo] ∧
    ∀ g2 path, (suggestBuildPushAccessDeniedAction g rc).tail =
      (suggestBuildPushAccessDeniedAction g2 ⟨⟨some cfg.DefaultRepo, path⟩⟩).tail := by
  have h : suggestBuildPushAccessDeniedAction g rc =
      [⟨.CHECK_DEFAULT_REPO_GLOBAL_CONFIG, "Check your default-repo setting in skaffold config"⟩,
        makeAuthSuggestionsForRepo cfg.DefaultRepo] := by
    simp [suggestBuildPushAccessDeniedAction, hrepo, hread, hne]
  refine ⟨h, fun g2 path => ?_⟩
  rw [h]
  simp [suggestBuildPushAccessDeniedAction]

/-- Witness of C9: the persisted configuration defines `gcr.io/p`. -/
theorem suggestBuildPushAccessDeniedAction_globalConfig_witness :
    suggestBuildPushAccessDeniedAction (constReader "gcr.io/p") RunContext.zero =
      [⟨.CHECK_DEFAULT_REPO_GLOBAL_CONFIG, "Check your default-repo setting in skaffold config"⟩,
        makeAuthSuggestionsForRepo "gcr.io/p"] :=
  (suggestBuildPushAccessDeniedAction_globalConfig (constReader "gcr.io/p") RunContext.zero
    ⟨"gcr.io/p"⟩ rfl rfl (by decide)).1

/-- C10: the pattern of `makeAuthSuggestionsForRepo` is searched for anywhere in the repository
string. The repository `example.com/gcr.io`, whose hostname is `example.com`, and the repository
`notgcr.io/app`, whose hostname is `notgcr.io`, both get `GCLOUD_DOCKER_AUTH_CONFIGURE`. -/
theorem makeAuthSuggestionsForRepo_unanchored :
    makeAuthSuggestionsForRepo "example.com/gcr.io" =
      ⟨.GCLOUD_DOCKER_AUTH_CONFIGURE, "try `gcloud auth configure-docker`"⟩ ∧
    makeAuthSuggestionsForRepo "notgcr.io/app" =
      ⟨.GCLOUD_DOCKER_AUTH_CONFIGURE, "try `gcloud auth configure-docker`"⟩ := by
  constructor <;> decide

/-! ## Lemmas on the display string -/

theorem append_ne_empty (a b : String) (h : a ≠ "") : a ++ b ≠ "" := by
  intro hab
  apply h
  have hd : (a ++ b).data = [] := by rw [hab]
  rw [String.data_append] at hd
  exact String.ext (List.append_eq_nil.1 hd).1

theorem intercalate_go_ne_empty (acc sep : String) (l : List String) (h : acc ≠ "") :
    String.intercalate.go acc sep l ≠ "" := by
  induction l generalizing acc with
  | nil => simpa [String.intercalate.go] using h
  | cons a as ih =>
    simp only [String.intercalate.go]
    exact ih _ (append_ne_empty _ _ (append_ne_empty _ _ h))

/-- Once the builder is not empty the loop of `concatSuggestions` writes the connective before
every action. -/
theorem foldl_concat_of_ne_empty (acc : String) (l : List proto.Suggestion) (h : acc ≠ "") :
    l.foldl
      (fun (s : String) suggestion => (if s ≠ "" then s ++ " or " else s) ++ suggestion.Action)
      acc = String.intercalate.go acc " or " (l.map (·.Action)) := by
  induction l generalizing acc with
  | nil => rfl
  | cons x xs ih =>
    simp only [List.foldl_cons, List.map_cons, String.intercalate.go, if_pos h]
    exact ih _ (append_ne_empty _ _ (append_ne_empty _ _ h))

/-- From the empty builder the loop of `concatSuggestions` skips the leading empty actions and
joins the rest. -/
theorem foldl_concat_empty (l : List proto.Suggestion) :
    l.foldl
      (fun (s : String) suggestion => (if s ≠ "" then s ++ " or " else s) ++ suggestion.Action)
      "" = String.intercalate " or " ((l.map (·.Action)).dropWhile (fun a => decide (a = ""))) := by
  induction l with
  | nil => rfl
  | cons x xs ih =>
    by_cases hx : x.Action = ""
    · simp only [List.foldl_cons, List.map_cons, List.dropWhile_cons, hx, decide_True, if_true]
      simpa using ih
    · have hstep : (if ("" : String) ≠ "" then "" ++ " or " else "") ++ x.Action = x.Action := by
        simp
      simp only [List.foldl_cons, List.map_cons, List.dropWhile_cons, hx, decide_False,
        hstep, String.intercalate]
      exact foldl_concat_of_ne_empty _ _ hx

/-- Closed form of `concatSuggestions`. -/
theorem concatSuggestions_closed (l : List proto.Suggestion) :
    concatSuggestions l =
      match (l.map (·.Action)).dropWhile (fun a => decide (a = "")) with
      | [] => ""
      | a :: as => String.intercalate " or " (a :: as) ++ "." := by
  unfold concatSuggestions
  simp only [foldl_concat_empty]
  cases hd : (l.map (·.Action)).dropWhile (fun a => decide (a = "")) with
  | nil => simp [String.intercalate]
  | cons a as =>
    have ha : a ≠ "" := by
      have := List.head_dropWhile_not (fun a => decide (a = "")) (l.map (·.Action))
      simp only [hd] at this
      simpa using this
    have hne : String.intercalate " or " (a :: as) ≠ "" := intercalate_go_ne_empty a _ as ha
    simp [hne]

/-! ## Display -/

/-- Counterexample to C11 as stated: a suggestion with an empty action text at the head of the
list is skipped together with the connective after it, and a list whose action texts are all
empty gives the empty string although the list is not empty. -/
theorem concatSuggestions_leading_empty :
    concatSuggestions [⟨.OPEN_ISSUE, ""⟩, ⟨.OPEN_ISSUE, "b"⟩] = "b." ∧
    String.intercalate " or " ["", "b"] ++ "." = " or b." ∧
    concatSuggestions [⟨.OPEN_ISSUE, ""⟩] = "" ∧
    String.intercalate " or " [""] ++ "." = "." := by
  refine ⟨?_, ?_, ?_, ?_⟩ <;> decide

/-- C11, amended: `concatSuggestions` skips the suggestions at the head of the list whose action
text is empty; if nothing remains the result is the empty string, and otherwise it is the
remaining action texts in list order, duplicates kept, joined by ` or ` and followed by one dot.
When the first action text is not empty the result is therefore all action texts joined by
` or ` and followed by one dot. The result is never a bare dot. -/
theorem concatSuggestions_spec :
    (∀ l : List proto.Suggestion, concatSuggestions l =
      match (l.map (·.Action)).dropWhile (fun a => decide (a = "")) with
      | [] => ""
      | a :: as => String.intercalate " or " (a :: as) ++ ".") ∧
    concatSuggestions [] = "" ∧
    (∀ (x : proto.Suggestion) (xs : List proto.Suggestion), x.Action ≠ "" →
      concatSuggestions (x :: xs) =
        String.intercalate " or " ((x :: xs).map (·.Action)) ++ ".") ∧
    (∀ l : List proto.Suggestion, concatSuggestions l ≠ ".") := by
  refine ⟨concatSuggestions_closed, rfl, ?_, ?_⟩
  · intro x xs hx
    rw [concatSuggestions_closed]
    simp [List.dropWhile_cons, hx]
  · intro l h
    rw [concatSuggestions_closed] at h
    cases hd : (l.map (·.Action)).dropWhile (fun a => decide (a = "")) with
    | nil =>
      rw [hd] at h
      exact absurd h (by decide)
    | cons a as =>
      rw [hd] at h
      have ha : a ≠ "" := by
        have := List.head_dropWhile_not (fun a => decide (a = "")) (l.map (·.Action))
        simp only [hd] at this
        simpa using this
      have hne : String.intercalate " or " (a :: as) ≠ "" := intercalate_go_ne_empty a _ as ha
      have hlen := congrArg String.length h
      rw [String.length_append] at hlen
      have h0 : (String.intercalate " or " (a :: as)).length = 0 := by
        have h1 : (".".length : Nat) = 1 := rfl
        omega
      apply hne
      exact String.ext (List.length_eq_zero.1 h0)

/-- Witness of C11, amended: two equal suggestions are both displayed. -/
theorem concatSuggestions_spec_witness :
    concatSuggestions [⟨.OPEN_ISSUE, "a"⟩, ⟨.OPEN_ISSUE, "a"⟩] =
      String.intercalate " or " ["a", "a"] ++ "." ∧
    String.intercalate " or " ["a", "a"] ++ "." = "a or a." :=
  ⟨concatSuggestions_spec.2.2.1 ⟨.OPEN_ISSUE, "a"⟩ [⟨.OPEN_ISSUE, "a"⟩] (by decide), by decide⟩

/-! ## Assembly -/

/-- C12: the structure returned by `ActionableErr(phase, err)` has the status code and the
suggestions of `getErrorCodeFromError(phase, err)` and the message `err.Error()`. -/
theorem ActionableErr_assembly (K : KnownProblems) (rc : RunContext) (phase : Phase)
    (err : GoError) (log : instrumentation.Telemetry) :
    (ActionableErr K rc phase err log).1 =
      { ErrCode := (getErrorCodeFromError K rc phase err).1,
        Message := err.Error,
        Suggestions := (getErrorCodeFromError K rc phase err).2 } := by
  unfold ActionableErr
  cases getErrorCodeFromError K rc phase err
  rfl

/-- Counterexample to C13 as stated: in the phase `Build` the message `context canceled` is
matched by a descriptor whose formatter describes it as `Build Cancelled.`, and the message of
the assembled structure is still `context canceled`. -/
theorem ActionableErr_ignores_description :
    getErrorCodeFromError sampleTablesDescribed sampleRunCtx Build (.plain "context canceled") =
      (sampleDescribed.errCode, sampleDescribed.suggestion sampleRunCtx) ∧
    sampleDescribed.description.map (fun describe => describe "context canceled") =
      some "Build Cancelled." ∧
    (ActionableErr sampleTablesDescribed sampleRunCtx Build
      (.plain "context canceled") []).1.Message = "context canceled" := by
  refine ⟨?_, ?_, ?_⟩ <;> decide

/-- C13, amended: the message of the structure returned by `ActionableErr(phase, err)` is
`err.Error()` in every case; the description formatter of the descriptor that the registry
lookup matches is not consulted, so the message is the same under all descriptor tables, phases
and run contexts. -/
theorem ActionableErr_message (K K2 : KnownProblems) (rc rc2 : RunContext) (phase phase2 : Phase)
    (err : GoError) (log : instrumentation.Telemetry) :
    (ActionableErr K rc phase err log).1.Message = err.Error ∧
    (ActionableErr K rc phase err log).1.Message =
      (ActionableErr K2 rc2 phase2 err log).1.Message := by
  have h : ∀ (K : KnownProblems) (rc : RunContext) (phase : Phase),
      (ActionableErr K rc phase err log).1.Message = err.Error := by
    intro K rc phase
    unfold ActionableErr
    cases getErrorCodeFromError K rc phase err
    rfl
  exact ⟨h K rc phase, by rw [h K rc phase, h K2 rc2 phase2]⟩

/-- Counterexample to C14 as stated: a call of `ActionableErr` on an empty telemetry log leaves
the log empty, where the claim has one entry, the status code of the result. -/
theorem ActionableErr_records_nothing :
    (ActionableErr sampleTables sampleRunCtx Build (.plain "context canceled") []).2 = [] ∧
    (ActionableErr sampleTables sampleRunCtx Build (.plain "context canceled") []).2 ≠
      [(ActionableErr sampleTables sampleRunCtx Build (.plain "context canceled") []).1.ErrCode]
    := by
  constructor <;> decide

/-- C14, amended: a call of `ActionableErr(phase, err)` appends nothing to the telemetry log,
whether the status code comes from the already-classified short-circuit or from the registry
lookup. -/
theorem ActionableErr_telemetry (K : KnownProblems) (rc : RunContext) (phase : Phase)
    (err : GoError) (log : instrumentation.Telemetry) :
    (ActionableErr K rc phase err log).2 = log := by
  unfold ActionableErr
  cases getErrorCodeFromError K rc phase err
  rfl

/-! ## Reclassification without a phase -/

theorem firstKnown_of_none_match (msg : String) (l : List problem)
    (h : ∀ p ∈ l, MatchString p.regexp msg = false) : firstKnown msg l = none := by
  induction l with
  | nil => rfl
  | cons v vs ih =>
    have hv : MatchString v.regexp msg = false := h v (List.mem_cons_self _ _)
    simp [firstKnown, hv, ih (fun p hp => h p (List.mem_cons_of_mem _ hp))]

/-- When some descriptor matches, the loop of `ShowAIError` stops at the matching descriptor of
smallest index. -/
theorem firstKnown_of_mem (msg : String) (l : List problem)
    (h : ∃ p ∈ l, MatchString p.regexp msg = true) :
    ∃ (i : Nat) (hi : i < l.length), MatchString (l.get ⟨i, hi⟩).regexp msg = true ∧
      (∀ j (hj : j < l.length), j < i → MatchString (l.get ⟨j, hj⟩).regexp msg = false) ∧
      firstKnown msg l = some (l.get ⟨i, hi⟩) := by
  induction l with
  | nil => simp at h
  | cons v vs ih =>
    by_cases hv : MatchString v.regexp msg = true
    · exact ⟨0, Nat.succ_pos _, hv, fun j _ hj => absurd hj (Nat.not_lt_zero j),
        by simp [firstKnown, hv]⟩
    · obtain ⟨p, hp, hm⟩ := h
      rcases List.mem_cons.1 hp with rfl | hp
      · exact absurd hm hv
      · obtain ⟨i, hi, hmi, hlt, hf⟩ := ih ⟨p, hp, hm⟩
        refine ⟨i + 1, Nat.succ_lt_succ hi, hmi, ?_, ?_⟩
        · intro j hj hji
          cases j with
          | zero => simpa using hv
          | succ k => exact hlt k (Nat.lt_of_succ_lt_succ hj) (Nat.lt_of_succ_lt_succ hji)
        · simpa [firstKnown, hv] using hf

/-- Unfolding of `ShowAIError` for an error whose own type is neither `Error` nor `problem`. -/
theorem ShowAIError_scan (K : KnownProblems) (err : GoError) (log : instrumentation.Telemetry)
    (h1 : err.assertError = none) (h2 : isProblem err = none) :
    ShowAIError K err log =
      match firstKnown err.Error (knownProblems K) with
      | some p => (.problem p err, log ++ [p.errCode])
      | none => (err, log) := by
  simp only [ShowAIError, h1, h2]
  rfl

/-- Counterexample to C15 as stated: the message `could not push image` matches the descriptor
`oldImageManifest`, which is registered under `DevInit` and is not a catch-all, and
`ShowAIError` returns the error itself. -/
theorem ShowAIError_skips_oldImageManifest :
    allErrors sampleTables DevInit =
      some [sampleTables.oldImageManifest, catchAll .DEVINIT_UNKNOWN] ∧
    MatchString sampleTables.oldImageManifest.regexp
      (GoError.plain "could not push image").Error = true ∧
    ShowAIError sampleTables (.plain "could not push image") [] =
      (.plain "could not push image", []) := by
  refine ⟨rfl, by decide, ?_⟩
  rw [ShowAIError_scan sampleTables (.plain "could not push image") [] rfl rfl,
    firstKnown_of_none_match _ _ (by decide)]

/-- C15, amended: for an error whose own type is neither `Error` nor `problem`, `ShowAIError`
scans the descriptors of `knownBuildProblems`, `knownDeployProblems` and `knownInitProblems`, in
this order, and nothing else (neither the catch-alls nor `oldImageManifest`). If the message
matches one of them, the result is the matching descriptor of smallest index in this order,
wrapping the error; if it matches none, the result is the error itself. -/
theorem ShowAIError_lookup (K : KnownProblems) (err : GoError) (log : instrumentation.Telemetry)
    (h1 : err.assertError = none) (h2 : isProblem err = none) :
    ((∃ p ∈ K.knownBuildProblems ++ K.knownDeployProblems ++ K.knownInitProblems,
        MatchString p.regexp err.Error = true) →
      ∃ (i : Nat) (hi : i < (knownProblems K).length),
        MatchString ((knownProblems K).get ⟨i, hi⟩).regexp err.Error = true ∧
        (∀ j (hj : j < (knownProblems K).length), j < i →
          MatchString ((knownProblems K).get ⟨j, hj⟩).regexp err.Error = false) ∧
        (ShowAIError K err log).1 = .problem ((knownProblems K).get ⟨i, hi⟩) err) ∧
    ((∀ p ∈ K.knownBuildProblems ++ K.knownDeployProblems ++ K.knownInitProblems,
        MatchString p.regexp err.Error = false) →
      (ShowAIError K err log).1 = err) := by
  constructor
  · intro h
    obtain ⟨i, hi, hm, hlt, hf⟩ := firstKnown_of_mem err.Error (knownProblems K) h
    refine ⟨i, hi, hm, hlt, ?_⟩
    rw [ShowAIError_scan K err log h1 h2, hf]
  · intro h
    rw [ShowAIError_scan K err log h1 h2, firstKnown_of_none_match err.Error (knownProblems K) h]

/-- Witness of C15, amended: a cancelled build is found in the build problems; a message that
matches `oldImageManifest` only is not found. -/
theorem ShowAIError_lookup_witness :
    (∃ (i : Nat) (hi : i < (knownProblems sampleTables).length),
        MatchString ((knownProblems sampleTables).get ⟨i, hi⟩).regexp
          (GoError.plain "context canceled").Error = true ∧
        (∀ j (hj : j < (knownProblems sampleTables).length), j < i →
          MatchString ((knownProblems sampleTables).get ⟨j, hj⟩).regexp
            (GoError.plain "context canceled").Error = false) ∧
        (ShowAIError sampleTables (.plain "context canceled") []).1 =
          .problem ((knownProblems sampleTables).get ⟨i, hi⟩) (.plain "context canceled")) ∧
    (ShowAIError sampleTables (.plain "could not push image") []).1 =
      .plain "could not push image" :=
  ⟨(ShowAIError_lookup sampleTables (.plain "context canceled") [] rfl rfl).1
      ⟨sampleCancelled, by simp [sampleTables], by decide⟩,
   (ShowAIError_lookup sampleTables (.plain "could not push image") [] rfl rfl).2
      (by decide)⟩

/-- C17: `ShowAIError` records a status code exactly when it returns a classified error. An error
whose own type is `Error` or `problem` is returned as it is and its status code is recorded
once; otherwise, if a known problem matches the message, the first such problem is returned
around the error and its status code is recorded once; and if none matches, the error is
returned as it is and nothing is recorded. -/
theorem ShowAIError_telemetry (K : KnownProblems) (log : instrumentation.Telemetry) :
    (∀ code suggestions msg,
      ShowAIError K (.skaffold code suggestions msg) log =
        (.skaffold code suggestions msg, log ++ [code])) ∧
    (∀ p inner, ShowAIError K (.problem p inner) log = (.problem p inner, log ++ [p.errCode])) ∧
    (∀ err, err.assertError = none → isProblem err = none →
      (∃ p ∈ knownProblems K, MatchString p.regexp err.Error = true) →
      ∃ p ∈ knownProblems K, MatchString p.regexp err.Error = true ∧
        ShowAIError K err log = (.problem p err, log ++ [p.errCode])) ∧
    (∀ err, err.assertError = none → isProblem err = none →
      (∀ p ∈ knownProblems K, MatchString p.regexp err.Error = false) →
      ShowAIError K err log = (err, log)) := by
  refine ⟨fun _ _ _ => rfl, fun _ _ => rfl, ?_, ?_⟩
  · intro err h1 h2 h
    obtain ⟨i, hi, hm, _, hf⟩ := firstKnown_of_mem err.Error (knownProblems K) h
    refine ⟨(knownProblems K).get ⟨i, hi⟩, List.get_mem _ _ _, hm, ?_⟩
    rw [ShowAIError_scan K err log h1 h2, hf]
  · intro err h1 h2 h
    rw [ShowAIError_scan K err log h1 h2, firstKnown_of_none_match err.Error (knownProblems K) h]

/-- Witness of C17: after one recorded code, an unreachable daemon is recorded as the second
code, and an unknown message leaves the log as it is. -/
theorem ShowAIError_telemetry_witness :
    (∃ p ∈ knownProblems sampleTables,
      MatchString p.regexp (GoError.plain "Cannot connect to the Docker daemon. Is").Error = true ∧
      ShowAIError sampleTables (.plain "Cannot connect to the Docker daemon. Is") [.other 7] =
        (.problem p (.plain "Cannot connect to the Docker daemon. Is"), [.other 7] ++ [p.errCode]))
    ∧ ShowAIError sampleTables (.plain "disk full") [.other 7] = (.plain "disk full", [.other 7]) :=
  ⟨(ShowAIError_telemetry sampleTables [.other 7]).2.2.1
      (.plain "Cannot connect to the Docker daemon. Is") rfl rfl
      ⟨sampleDaemon, by simp [knownProblems, sampleTables], by decide⟩,
   (ShowAIError_telemetry sampleTables [.other 7]).2.2.2 (.plain "disk full") rfl rfl
      (by decide)⟩

/-! ## The Docker daemon scenario -/

/-- The pattern `DockerConnectionFailed` is found in a message exactly when the message contains
the text `Cannot connect to the Docker daemon` and, after it and before any line feed, the text
` Is`. -/
theorem MatchString_reDockerConnectionFailed_iff (msg : String) :
    MatchString reDockerConnectionFailed msg = true ↔
      ∃ t a v, msg.data =
          t ++ "Cannot connect to the Docker daemon".data ++ a ++ " Is".data ++ v ∧
        ∀ c ∈ a, c ≠ Regex.lineFeed := by
  rw [MatchString_iff]
  constructor
  · rintro ⟨t, u, v, hw, hu⟩
    simp only [reDockerConnectionFailed, Regex.matches_cat_iff, Regex.matches_lit_iff,
      Regex.matches_star_dot_iff] at hu
    obtain ⟨p, q, hpq, _, q1, q2, hq, ⟨l, a, hla, hl, ha⟩, hq2⟩ := hu
    subst hl hq2 hla hq hpq
    exact ⟨t ++ p, a, v, by simp [hw], ha⟩
  · rintro ⟨t, a, v, hw, ha⟩
    refine ⟨t, "Cannot connect to the Docker daemon".data ++ a ++ " Is".data, v,
      by simp [hw], ?_⟩
    have h0 : Regex.Matches (.star .dot) [] := Regex.Matches.starNil
    have h1 : Regex.Matches (.cat (.lit "Cannot connect to the Docker daemon".data)
        (.star .dot)) ("Cannot connect to the Docker daemon".data ++ a) :=
      Regex.Matches.cat ((Regex.matches_lit_iff _ _).2 rfl)
        ((Regex.matches_star_dot_iff a).2 ha)
    have h2 : Regex.Matches (.lit " Is".data) " Is".data := (Regex.matches_lit_iff _ _).2 rfl
    have h3 := Regex.Matches.cat h0 (Regex.Matches.cat h1 h2)
    simpa [reDockerConnectionFailed] using h3

/-- C16: under the Build descriptors of the specification, every error that carries no
classification and whose message matches the pattern `DockerConnectionFailed` (it contains
`Cannot connect to the Docker daemon` followed on the same line by ` Is`) gets, in the phase
`Build`, the status code of the daemon descriptor, which is not `BUILD_UNKNOWN`, and a non-empty
list of suggestions. -/
theorem getErrorCodeFromError_docker_daemon (initProblems deployProblems : List problem)
    (oldImageManifest : problem) (rc : RunContext) (err : GoError)
    (h1 : err.asSkaffoldErr = none) (h2 : err.asProblem = none)
    (hm : MatchString reDockerConnectionFailed err.Error = true ∨
      ∃ t a v, err.Error.data =
          t ++ "Cannot connect to the Docker daemon".data ++ a ++ " Is".data ++ v ∧
        ∀ c ∈ a, c ≠ Regex.lineFeed) :
    getErrorCodeFromError (specTables initProblems deployProblems oldImageManifest) rc Build err =
      (specDockerDaemon.errCode, specDockerDaemon.suggestion rc) ∧
    specDockerDaemon.errCode ≠ .BUILD_UNKNOWN ∧
    specDockerDaemon.suggestion rc ≠ [] := by
  have hmatch : MatchString specDockerDaemon.regexp err.Error = true := by
    rcases hm with hm | hm
    · exact hm
    · exact (MatchString_reDockerConnectionFailed_iff err.Error).2 hm
  refine ⟨?_, by decide, by simp [specDockerDaemon]⟩
  rw [getErrorCodeFromError_unclassified _ rc Build err h1 h2]
  have hreg : allErrors (specTables initProblems deployProblems oldImageManifest) Build =
      some ([specDockerDaemon, specBuildCancelled] ++ [catchAll .BUILD_UNKNOWN]) := rfl
  rw [hreg]
  simp [firstMatch, hmatch]

/-- Witness of C16: the message of the Docker client. -/
theorem getErrorCodeFromError_docker_daemon_witness :
    getErrorCodeFromError (specTables [] [] samplePushDenied) sampleRunCtx Build
        (.plain sampleDaemonMessage) =
      (specDockerDaemon.errCode, specDockerDaemon.suggestion sampleRunCtx) ∧
    specDockerDaemon.errCode ≠ .BUILD_UNKNOWN ∧
    specDockerDaemon.suggestion sampleRunCtx ≠ [] :=
  getErrorCodeFromError_docker_daemon [] [] samplePushDenied sampleRunCtx
    (.plain sampleDaemonMessage) rfl rfl
    (Or.inr ⟨[], " at unix:///var/run/docker.sock.".data, " the docker daemon running?".data,
      by decide, by decide⟩)

/-! ## The tester -/

namespace test

/-- The loop of `TestDependencies` passes over a run of runners that all succeed and collects
their results. -/
theorem depsLoop_of_allOk {σ : Type} {runners : List (runner σ)} {s s2 : σ}
    {deps : List String} (h : AllDepsOk runners s deps s2) (acc : List String)
    (rest : List (runner σ)) :
    depsLoop acc (runners ++ rest) s = depsLoop (acc ++ deps) rest s2 := by
  induction h generalizing acc with
  | nil s => simp
  | @cons r rest0 s0 s1 s3 result deps0 hr _ ih =>
    simp only [List.cons_append, depsLoop, hr]
    have hrec := ih (acc ++ result)
    rw [List.append_assoc] at hrec
    exact hrec

/-- Every list of runners either succeeds as a whole or has a first runner that fails. -/
theorem allDepsOk_or_fails {σ : Type} (runners : List (runner σ)) (s : σ) :
    (∃ deps s2, AllDepsOk runners s deps s2) ∨
    ∃ pre r post deps s1 err s2, runners = pre ++ r :: post ∧ AllDepsOk pre s deps s1 ∧
      r.TestDependencies s1 = (.error err, s2) := by
  induction runners generalizing s with
  | nil => exact Or.inl ⟨[], s, AllDepsOk.nil s⟩
  | cons r rest ih =>
    rcases hr : r.TestDependencies s with ⟨res, s1⟩
    cases res with
    | error err => exact Or.inr ⟨[], r, rest, [], s, err, s1, rfl, AllDepsOk.nil s, hr⟩
    | ok result =>
      rcases ih s1 with ⟨deps, s2, h⟩ | ⟨pre, r2, post, deps, s3, err, s2, hl, h, hf⟩
      · exact Or.inl ⟨result ++ deps, s2, AllDepsOk.cons hr h⟩
      · exact Or.inr ⟨r :: pre, r2, post, result ++ deps, s3, err, s2, by simp [hl],
          AllDepsOk.cons hr h, hf⟩

/-- The loop of `runTests` passes over a run of runners that all succeed and hands their text to
the writer. -/
theorem testsLoop_of_allPass {σ : Type} {runners : List (runner σ)} {s s2 : σ}
    {written : Output} (h : AllTestsPass runners s written s2) (out : Output)
    (rest : List (runner σ)) :
    testsLoop (runners ++ rest) out s = testsLoop rest (out ++ written) s2 := by
  induction h generalizing out with
  | nil s => simp
  | @cons r rest0 s0 s1 s3 text more hr _ ih =>
    simp only [List.cons_append, testsLoop, hr]
    have hrec := ih (out ++ text)
    rw [List.append_assoc] at hrec
    exact hrec

/-- Every list of runners either passes as a whole or has a first runner that fails. -/
theorem allTestsPass_or_fails {σ : Type} (runners : List (runner σ)) (s : σ) :
    (∃ written s2, AllTestsPass runners s written s2) ∨
    ∃ pre r post written s1 text err s2, runners = pre ++ r :: post ∧
      AllTestsPass pre s written s1 ∧ r.Test s1 = (text, some err, s2) := by
  induction runners generalizing s with
  | nil => exact Or.inl ⟨[], s, AllTestsPass.nil s⟩
  | cons r rest ih =>
    rcases hr : r.Test s with ⟨text, res, s1⟩
    cases res with
    | some err => exact Or.inr ⟨[], r, rest, [], s, text, err, s1, rfl, AllTestsPass.nil s, hr⟩
    | none =>
      rcases ih s1 with ⟨more, s2, h⟩ | ⟨pre, r2, post, more, s3, text2, err, s2, hl, h, hf⟩
      · exact Or.inl ⟨text ++ more, s2, AllTestsPass.cons hr h⟩
      · exact Or.inr ⟨r :: pre, r2, post, text ++ more, s3, text2, err, s2, by simp [hl],
          AllTestsPass.cons hr h, hf⟩

theorem testsLoop_fails {σ : Type} {pre : List (runner σ)} {r : runner σ} {s s1 s2 : σ}
    {written text : Output} {err : GoError} (h : AllTestsPass pre s written s1)
    (hr : r.Test s1 = (text, some err, s2)) (post : List (runner σ)) (out : Output) :
    testsLoop (pre ++ r :: post) out s =
      (some (.wrap ("running tests: " ++ err.Error) err), out ++ written ++ text, s2) := by
  rw [testsLoop_of_allPass h out (r :: post)]
  simp only [testsLoop, hr]

theorem foldl_append_new {σ τ : Type} (new : τ → runner σ) (tcs : List τ)
    (acc : List (runner σ)) :
    tcs.foldl (fun runners tc => runners ++ [new tc]) acc = acc ++ tcs.map new := by
  induction tcs generalizing acc with
  | nil => simp
  | cons tc rest ih => simp [ih]

/-- C18: `TestDependencies` aggregates in runner order and fails fast. If every runner returns
dependencies, the result is their concatenation in runner order, with no error. If the runners
before `r` return dependencies and `r` fails, the result is the error of `r`, unchanged, with no
dependencies, and the state is the one `r` left, whatever the runners after `r` are. One of the
two cases always applies. -/
theorem TestDependencies_spec {σ : Type} (muted : Bool) :
    (∀ (runners : List (runner σ)) (s s2 : σ) (deps : List String),
      AllDepsOk runners s deps s2 →
      (FullTester.mk runners muted).TestDependencies s = (.ok deps, s2)) ∧
    (∀ (pre post : List (runner σ)) (r : runner σ) (s s1 s2 : σ) (deps : List String)
      (err : GoError),
      AllDepsOk pre s deps s1 → r.TestDependencies s1 = (.error err, s2) →
      (FullTester.mk (pre ++ r :: post) muted).TestDependencies s = (.error err, s2)) ∧
    (∀ (runners : List (runner σ)) (s : σ),
      (∃ deps s2, AllDepsOk runners s deps s2) ∨
      ∃ pre r post deps s1 err s2, runners = pre ++ r :: post ∧ AllDepsOk pre s deps s1 ∧
        r.TestDependencies s1 = (.error err, s2)) := by
  refine ⟨?_, ?_, allDepsOk_or_fails⟩
  · intro runners s s2 deps h
    have := depsLoop_of_allOk h [] []
    simpa [FullTester.TestDependencies, depsLoop] using this
  · intro pre post r s s1 s2 deps err h hr
    show depsLoop [] (pre ++ r :: post) s = (.error err, s2)
    rw [depsLoop_of_allOk h [] (r :: post)]
    simp only [depsLoop, hr]

/-- Witness of C18: two runners with a common dependency, and three runners of which the second
fails; the state lists the runners consulted. -/
theorem TestDependencies_spec_witness :
    (FullTester.mk [sampleRunner "a" (.ok ["Dockerfile", "x.yaml"]) none,
        sampleRunner "b" (.ok ["Dockerfile"]) none] false).TestDependencies [] =
      (.ok (["Dockerfile", "x.yaml"] ++ (["Dockerfile"] ++ [])), ["a", "b"]) ∧
    (FullTester.mk ([sampleRunner "a" (.ok ["x.yaml"]) none] ++
        sampleRunner "b" (.error (.plain "no such file")) none ::
        [sampleRunner "c" (.ok ["y.yaml"]) none]) false).TestDependencies [] =
      (.error (.plain "no such file"), ["a", "b"]) :=
  ⟨(TestDependencies_spec false).1 _ [] ["a", "b"] _
      (@AllDepsOk.cons _ _ _ _ ["a"] _ _ _ rfl (@AllDepsOk.cons _ _ _ _ ["a", "b"] _ _ _ rfl
        (AllDepsOk.nil _))),
   (TestDependencies_spec false).2.1 [sampleRunner "a" (.ok ["x.yaml"]) none]
      [sampleRunner "c" (.ok ["y.yaml"]) none]
      (sampleRunner "b" (.error (.plain "no such file")) none) [] ["a"] ["a", "b"]
      (["x.yaml"] ++ []) (.plain "no such file")
      (@AllDepsOk.cons _ _ _ _ ["a"] _ _ _ rfl (AllDepsOk.nil _)) rfl⟩

/-- C19: `Test` with no runner returns `nil` and writes nothing. `runTests` invokes the runners
in order: if they all succeed it returns `nil`; if the runners before `r` succeed and `r` fails
it returns the error of `r` wrapped with the text `running tests: `, in the state that `r` left,
whatever the runners after `r` are; and it returns `nil` only if every runner succeeds.
`getRunners` gives one runner for each test case, in the order of the test cases. -/
theorem Test_spec {σ τ : Type} (muted : Bool) :
    (∀ (logfileCreate : Except GoError String) (out : Output) (s : σ),
      (FullTester.mk ([] : List (runner σ)) muted).Test logfileCreate out s = (none, out, s)) ∧
    (∀ (runners : List (runner σ)) (s s2 : σ) (out written : Output),
      AllTestsPass runners s written s2 →
      (FullTester.mk runners muted).runTests out s = (none, out ++ written, s2)) ∧
    (∀ (pre post : List (runner σ)) (r : runner σ) (s s1 s2 : σ) (out written text : Output)
      (err : GoError),
      AllTestsPass pre s written s1 → r.Test s1 = (text, some err, s2) →
      (FullTester.mk (pre ++ r :: post) muted).runTests out s =
        (some (.wrap ("running tests: " ++ err.Error) err), out ++ written ++ text, s2)) ∧
    (∀ (runners : List (runner σ)) (s : σ) (out : Output),
      ((FullTester.mk runners muted).runTests out s).1 = none ↔
        ∃ written s2, AllTestsPass runners s written s2) ∧
    (∀ (new : τ → runner σ) (tcs : List τ),
      getRunners new tcs = tcs.map new ∧ (getRunners new tcs).length = tcs.length) := by
  refine ⟨fun _ _ _ => rfl, ?_, ?_, ?_, ?_⟩
  · intro runners s s2 out written h
    have := testsLoop_of_allPass h out []
    simpa [FullTester.runTests, testsLoop] using this
  · intro pre post r s s1 s2 out written text err h hr
    exact testsLoop_fails h hr post out
  · intro runners s out
    constructor
    · intro hnil
      rcases allTestsPass_or_fails runners s with h | ⟨pre, r, post, w, s1, text, err, s2, hl, h, hr⟩
      · exact h
      · subst hl
        have hf := testsLoop_fails h hr post out
        simp [FullTester.runTests, hf] at hnil
    · rintro ⟨written, s2, h⟩
      have hrun := testsLoop_of_allPass h out []
      rw [List.append_nil] at hrun
      simp [FullTester.runTests, testsLoop, hrun]
  · intro new tcs
    have h : getRunners new tcs = tcs.map new := by
      simpa [getRunners] using foldl_append_new new tcs []
    exact ⟨h, by simp [h]⟩

/-- Witness of C19: three runners of which the second fails; the third is not invoked. -/
theorem Test_spec_witness :
    (FullTester.mk [sampleRunner "a" (.ok []) none, sampleRunner "b" (.ok []) none]
        false).runTests ["Testing images...\n"] [] =
      (none, ["Testing images...\n"] ++ (["testing a\n"] ++ (["testing b\n"] ++ [])),
        ["a", "b"]) ∧
    (FullTester.mk ([sampleRunner "a" (.ok []) none] ++
        sampleRunner "b" (.ok []) (some (.plain "exit status 1")) ::
        [sampleRunner "c" (.ok []) none]) false).runTests [] [] =
      (some (.wrap ("running tests: " ++ (GoError.plain "exit status 1").Error)
          (.plain "exit status 1")),
        [] ++ (["testing a\n"] ++ []) ++ ["testing b\n"], ["a", "b"]) :=
  ⟨(@Test_spec _ Unit false).2.1 _ [] ["a", "b"] _ _
      (@AllTestsPass.cons _ _ _ _ ["a"] _ _ _ rfl
        (@AllTestsPass.cons _ _ _ _ ["a", "b"] _ _ _ rfl (AllTestsPass.nil _))),
   (@Test_spec _ Unit false).2.2.1 [sampleRunner "a" (.ok []) none]
      [sampleRunner "c" (.ok []) none]
      (sampleRunner "b" (.ok []) (some (.plain "exit status 1"))) [] ["a"] ["a", "b"]
      [] (["testing a\n"] ++ []) ["testing b\n"] (.plain "exit status 1")
      (@AllTestsPass.cons _ _ _ _ ["a"] _ _ _ rfl (AllTestsPass.nil _)) rfl⟩

end test

end Skaffold
